import Mathlib

/-!
# Verification of the Nitro compiler front-end (tokenizer / parser / generator)

This file is a shallow embedding, in Lean 4, of the three compilation stages
of the Nitro language implementation (`src/stages/tokenizer.ts`,
`src/stages/parser.ts`, `src/stages/generator.ts`), together with theorems
settling a list of claims about them.

Modelling conventions:
* JavaScript strings are modelled as `List Char` (code points).  All inputs
  appearing in theorems are ASCII, where code points, UTF-16 units and bytes
  coincide.
* JavaScript numbers holding integer token values are modelled as `Nat`
  (the lexed digit strings are non-negative); parsed literal values in the
  AST are `Int` (the parser can negate).  `parseFloat` values are modelled
  as exact rationals `Rat`; every float appearing in a theorem below
  (only `42.5`) is exactly representable as a binary double, so the
  rational value coincides with the JavaScript number.
* Thrown exceptions are modelled with `Except`: `InputError` carries the
  flattened message string (the TypeScript `InputError` constructor joins
  its chunk list into `Error.message` exactly like this) and a location.
  Recursion uses an explicit fuel argument; running out of fuel is a
  distinguished error constructor that no theorem ever confuses with a
  genuine outcome.
* Side-effecting style warnings (`log('WARN', …)`) do not affect tokens,
  AST or generated bytes; they are not modelled.
-/

/-- Source location, as in `log.ts`: 1-based line and column. -/
structure Location where
  file : String
  line : Nat
  column : Nat
deriving DecidableEq

/-- Tokens, as in `tokenizer.ts` (`SymbolToken | KeywordToken | …`).
`symbol`/`keyword` values are strings drawn from the tables below. -/
inductive Token where
  | symbol (value : String) (location : Location)
  | keyword (value : String) (location : Location)
  | identifier (value : String) (location : Location)
  | integerLiteral (value : Nat) (location : Location)
  | floatLiteral (value : Rat) (location : Location)
  | stringLiteral (value : String) (location : Location)
deriving DecidableEq

/-- Errors of the tokenizer: a thrown `InputError` (message flattened to a
string, plus location), or fuel exhaustion of the embedding. -/
inductive TokErr where
  | inputError (message : String) (location : Location)
  | fuelExhausted
deriving DecidableEq

/-- The `symbols` table of `tokenizer.ts`, in source order. -/
def symbols : List String :=
  [",", ";", "=", "+", "-", "*", "/", "%", "|", "&",
   "==", "!=", "<", "<=", ">", ">=", "(", ")"]

/-- `[...symbols].sort((a, b) => b.length - a.length)`: the stable
length-descending sort of `symbols` (JavaScript `Array.prototype.sort` is
stable, so ties keep source order). -/
def orderedSymbols : List String :=
  ["==", "!=", "<=", ">=",
   ",", ";", "=", "+", "-", "*", "/", "%", "|", "&", "<", ">", "(", ")"]

/-- The `keywords` table of `tokenizer.ts`. -/
def keywords : List String := ["const"]

/-- `orderedSymbols` is a permutation of `symbols` sorted by non-increasing
length, i.e. it is the (stable) result of the sort in the source. -/
theorem orderedSymbols_spec :
    orderedSymbols.Perm symbols ∧
    orderedSymbols.Pairwise (fun a b => b.length ≤ a.length) := by
  constructor <;> decide

/-- Prefix test on character lists (`input.startsWith(s)`). -/
def isPrefixL : List Char → List Char → Bool
  | [], _ => true
  | _ :: _, [] => false
  | a :: as, b :: bs => a = b && isPrefixL as bs

theorem isPrefixL_eq_append {p cs : List Char} (h : isPrefixL p cs = true) :
    cs = p ++ cs.drop p.length := by
  induction p generalizing cs with
  | nil => simp
  | cons a as ih =>
    cases cs with
    | nil => simp [isPrefixL] at h
    | cons b bs =>
      simp only [isPrefixL, Bool.and_eq_true, decide_eq_true_eq] at h
      obtain ⟨rfl, h2⟩ := h
      simpa using ih h2

/-- Span: longest matching prefix plus rest (used to model the anchored
greedy regexes `^[ \t]+`, `^[0-9]+`, …). -/
def spanP (p : Char → Bool) : List Char → List Char × List Char
  | [] => ([], [])
  | c :: cs =>
    if p c then
      let t := spanP p cs
      (c :: t.1, t.2)
    else ([], c :: cs)

theorem spanP_append (p : Char → Bool) (cs : List Char) :
    (spanP p cs).1 ++ (spanP p cs).2 = cs := by
  induction cs with
  | nil => rfl
  | cons c cs ih =>
    by_cases h : p c <;> simp [spanP, h, ih]

/-- Whitespace characters of the regex `[ \t]`. -/
def isWsChar (c : Char) : Bool := c = ' ' || c = '\t'

/-- Characters matched by `.` in a JavaScript regex: anything that is not a
line terminator (`\n`, `\r`; the U+2028/U+2029 terminators never occur in
inputs considered here). -/
def isDotChar (c : Char) : Bool := !(c = '\n' || c = '\r')

/-- Digit classes of the integer-literal regexes. -/
def isHexDigit (c : Char) : Bool :=
  (('0' ≤ c) && (c ≤ '9')) || (('a' ≤ c) && (c ≤ 'f')) || (('A' ≤ c) && (c ≤ 'F'))

def isBinDigit (c : Char) : Bool := c = '0' || c = '1'

def isOctDigit (c : Char) : Bool := ('0' ≤ c) && (c ≤ '7')

def isDecDigit (c : Char) : Bool := ('0' ≤ c) && (c ≤ '9')

/-- Numeric value of one digit character (as `parseInt` decodes it). -/
def digitVal (c : Char) : Nat :=
  if 'a' ≤ c ∧ c ≤ 'f' then c.toNat - 'a'.toNat + 10
  else if 'A' ≤ c ∧ c ≤ 'F' then c.toNat - 'A'.toNat + 10
  else c.toNat - '0'.toNat

/-- `parseInt(digits, base)` on an all-valid digit string. -/
def digitsToNat (base : Nat) (ds : List Char) : Nat :=
  ds.foldl (fun n c => n * base + digitVal c) 0

/-- The rational value of the decimal float text `ip.fp`
(`fpLen` = number of fractional digits); `parseFloat` rounds this to the
nearest double, which is exact for every float appearing in a theorem
below. -/
def mkFloatVal (ip fp fpLen : Nat) : Rat :=
  ((ip * 10 ^ fpLen + fp : Nat) : Rat) / ((10 ^ fpLen : Nat) : Rat)

/-- `JSON.stringify` of a one-character string, as used in the two
tokenizer error messages. -/
def jsonStringifyChar (c : Char) : String :=
  let hexDig : Nat → String := fun n =>
    String.mk [if n < 10 then Char.ofNat ('0'.toNat + n) else Char.ofNat ('a'.toNat + n - 10)]
  let body : String :=
    if c = '"' then "\\\""
    else if c = '\\' then "\\\\"
    else if c = '\x08' then "\\b"
    else if c = '\x09' then "\\t"
    else if c = '\x0a' then "\\n"
    else if c = '\x0c' then "\\f"
    else if c = '\x0d' then "\\r"
    else if c.toNat < 0x20 then "\\u00" ++ hexDig (c.toNat / 16) ++ hexDig (c.toNat % 16)
    else String.mk [c]
  "\"" ++ body ++ "\""

/-- First symbol of the list that is a prefix of the input, with the rest of
the input (the `for (const symbol of orderedSymbols)` loop). -/
def firstSymbolMatch : List String → List Char → Option (String × List Char)
  | [], _ => none
  | s :: ss, cs =>
    if isPrefixL s.data cs then some (s, cs.drop s.data.length)
    else firstSymbolMatch ss cs

theorem firstSymbolMatch_sound {ss : List String} {cs : List Char}
    {s : String} {r : List Char}
    (h : firstSymbolMatch ss cs = some (s, r)) :
    s ∈ ss ∧ cs = s.data ++ r := by
  induction ss with
  | nil => simp [firstSymbolMatch] at h
  | cons a as ih =>
    by_cases hp : isPrefixL a.data cs
    · rw [firstSymbolMatch, if_pos hp] at h
      obtain ⟨rfl, rfl⟩ : a = s ∧ cs.drop a.data.length = r := by
        simpa using h
      exact ⟨List.mem_cons_self .., isPrefixL_eq_append hp⟩
    · rw [firstSymbolMatch, if_neg hp] at h
      obtain ⟨h1, h2⟩ := ih h
      exact ⟨List.mem_cons_of_mem _ h1, h2⟩

/-- The newline rule `^\r?\n`. -/
def tryNewline : List Char → Option (List Char)
  | '\r' :: '\n' :: r => some r
  | '\n' :: r => some r
  | _ => none

/-- The line-comment rule `^\/\/.*\r?\n` (`.` matches no line
terminator, and the final newline is mandatory). -/
def tryLineComment (cs : List Char) : Option (List Char) :=
  match cs with
  | '/' :: '/' :: r0 =>
    let body := spanP isDotChar r0
    tryNewline body.2
  | _ => none

/-- The body search of the non-greedy block-comment regex
`\/\*[\s\S]*?\*\/`: the earliest `*/`, returning the interior and the rest
after it. -/
def findBlockClose : List Char → Option (List Char × List Char)
  | [] => none
  | c :: cs =>
    if c = '*' ∧ cs.head? = some '/' then some ([], cs.tail)
    else (findBlockClose cs).map (fun p => (c :: p.1, p.2))

theorem findBlockClose_sound {cs : List Char} {i r : List Char}
    (h : findBlockClose cs = some (i, r)) :
    cs = i ++ '*' :: '/' :: r := by
  induction cs generalizing i r with
  | nil => simp [findBlockClose] at h
  | cons c cs ih =>
    rw [findBlockClose] at h
    split at h
    · next hc =>
      obtain ⟨rfl, hh⟩ := hc
      obtain ⟨rfl, rfl⟩ : ([] : List Char) = i ∧ cs.tail = r := by simpa using h
      cases cs with
      | nil => simp at hh
      | cons d ds =>
        obtain rfl : d = '/' := by simpa using hh
        rfl
    · next =>
      rw [Option.map_eq_some'] at h
      obtain ⟨⟨i', r'⟩, hsome, heq⟩ := h
      obtain ⟨rfl, rfl⟩ : c :: i' = i ∧ r' = r := by simpa using heq
      simpa using ih hsome

/-- The block-comment rule `^\/\*[\s\S]*?\*\/`: returns the full matched
text and the rest. -/
def tryBlockComment (cs : List Char) : Option (List Char × List Char) :=
  match cs with
  | '/' :: '*' :: r0 =>
    (findBlockClose r0).map (fun p => ('/' :: '*' :: (p.1 ++ ['*', '/']), p.2))
  | _ => none

/-- Number of characters after the last `'\n'` (for block-comment column
accounting: `1 + lines[lines.length - 1].length`). -/
def afterLastNlLen (cs : List Char) : Nat :=
  (cs.reverse.takeWhile (fun c => c ≠ '\n')).length

/-- One integer-literal form: prefix character (`x`/`b`/`o`) and digit
class.  Returns the digit run and the rest.  The matched text is
`'0' :: pre :: digits`. -/
def tryPrefixedInt (pre : Char) (isDig : Char → Bool) (cs : List Char) :
    Option (List Char × List Char) :=
  match cs with
  | '0' :: p :: r1 =>
    if p = pre then
      if (spanP isDig r1).1 ≠ [] then
        some ((spanP isDig r1).1, (spanP isDig r1).2)
      else none
    else none
  | _ => none

/-- The integer-literal chain
`0x[0-9a-fA-F]+ ?? 0b[01]+ ?? 0o[0-7]+ ?? [0-9]+`.  Returns
`(base, digits, matchedLength, rest)`. -/
def tryIntMatch (cs : List Char) : Option (Nat × List Char × Nat × List Char) :=
  match tryPrefixedInt 'x' isHexDigit cs with
  | some (ds, r) => some (16, ds, ds.length + 2, r)
  | none =>
  match tryPrefixedInt 'b' isBinDigit cs with
  | some (ds, r) => some (2, ds, ds.length + 2, r)
  | none =>
  match tryPrefixedInt 'o' isOctDigit cs with
  | some (ds, r) => some (8, ds, ds.length + 2, r)
  | none =>
  if (spanP isDecDigit cs).1 ≠ [] then
    some (10, (spanP isDecDigit cs).1, (spanP isDecDigit cs).1.length,
      (spanP isDecDigit cs).2)
  else none

/-- The float-literal rule `^[0-9]+\.[0-9]+`: returns
`(intDigits, fracDigits, rest)`. -/
def tryFloatMatch (cs : List Char) : Option (List Char × List Char × List Char) :=
  if (spanP isDecDigit cs).1 ≠ [] then
    match (spanP isDecDigit cs).2 with
    | '.' :: r2 =>
      if (spanP isDecDigit r2).1 ≠ [] then
        some ((spanP isDecDigit cs).1, (spanP isDecDigit r2).1, (spanP isDecDigit r2).2)
      else none
    | _ => none
  else none

/-- One case of the escape-aware string-literal regex body
`(?:[^Q\\]|\\.)*Q` for quote `Q`: returns the raw inner text and the rest
after the closing quote.  A backslash must be followed by a `.`-matchable
character (not a line terminator), exactly as in the regex. -/
def strLitBody (q : Char) : List Char → Option (List Char × List Char)
  | [] => none
  | c :: cs =>
    if c = q then some ([], cs)
    else if c = '\\' then
      match cs with
      | [] => none
      | e :: cs' =>
        if isDotChar e then
          (strLitBody q cs').map (fun p => (c :: e :: p.1, p.2))
        else none
    else (strLitBody q cs).map (fun p => (c :: p.1, p.2))

/-- The string-literal rule
`'(?:[^'\\]|\\.)*'` ?? `"(?:[^"\\]|\\.)*"`: returns the quote-stripped
inner text and the rest. -/
def tryStrMatch (cs : List Char) : Option (List Char × List Char) :=
  match cs with
  | '\'' :: r0 => strLitBody '\'' r0
  | '"' :: r0 => strLitBody '"' r0
  | _ => none

/-- The per-character continuation test of the identifier/keyword loop:
`input` is non-empty, no stop string (`' '`, `'\t'`, `'\r'`, `'\n'`, `'/'`,
any symbol, quotes) is a prefix, the head is not a control character, and
the head is either non-ASCII (`charCodeAt(0) >= 0x80`) or matches
`[a-zA-Z0-9_]`. -/
def identContinue (cs : List Char) : Bool :=
  match cs with
  | [] => false
  | c :: _ =>
    let stops : List String := [" ", "\t", "\r", "\n", "/"] ++ symbols ++ ["'", "\""]
    !(stops.any (fun s => isPrefixL s.data cs)) &&
    !(c.toNat ≤ 0x1F) &&
    (c.toNat ≥ 0x80 ||
      ((('a' ≤ c) && (c ≤ 'z')) || (('A' ≤ c) && (c ≤ 'Z')) ||
       (('0' ≤ c) && (c ≤ '9')) || c = '_'))

/-- The identifier/keyword buffer loop of `tokenize` (rule 10). -/
def identSpan : List Char → List Char × List Char
  | [] => ([], [])
  | c :: cs =>
    if identContinue (c :: cs) then
      let t := identSpan cs
      (c :: t.1, t.2)
    else ([], c :: cs)

theorem identSpan_append (cs : List Char) :
    (identSpan cs).1 ++ (identSpan cs).2 = cs := by
  induction cs with
  | nil => rfl
  | cons c cs ih =>
    by_cases h : identContinue (c :: cs) <;> simp [identSpan, h, ih]

/-- The main loop of `tokenize` (`while (input.length > 0) { … }`), with an
explicit fuel argument; each iteration tries the rules in source order.
The accumulated tokens are kept reversed. -/
def tokenizeGo : Nat → String → List Char → Nat → Nat → List Token →
    Except TokErr (List Token)
  | 0, _, _, _, _, _ => .error .fuelExhausted
  | fuel + 1, file, input, line, column, tokens =>
    match input with
    | [] => .ok tokens.reverse
    | c :: _ =>
      -- Ignore whitespace
      if (spanP isWsChar input).1 ≠ [] then
        tokenizeGo fuel file (spanP isWsChar input).2 line
          (column + (spanP isWsChar input).1.length) tokens
      else
      -- Ignore newlines
      match tryNewline input with
      | some r => tokenizeGo fuel file r (line + 1) 1 tokens
      | none =>
      -- Ignore line comments
      match tryLineComment input with
      | some r => tokenizeGo fuel file r (line + 1) 1 tokens
      | none =>
      -- Ignore block comments
      match tryBlockComment input with
      | some (matched, r) =>
        tokenizeGo fuel file r (line + matched.count '\n')
          (if matched.count '\n' = 0 then column + matched.length
           else 1 + afterLastNlLen matched) tokens
      | none =>
      -- Ignore control characters (throws)
      if c.toNat ≤ 0x1F then
        .error (.inputError ("Unexpected control character: " ++ jsonStringifyChar c)
          ⟨file, line, column⟩)
      else
      -- Match symbols
      match firstSymbolMatch orderedSymbols input with
      | some (s, r) =>
        tokenizeGo fuel file r line (column + s.length)
          (Token.symbol s ⟨file, line, column⟩ :: tokens)
      | none =>
      -- Match integer literals: the match is accepted only when the next
      -- character is not `.` (`!/^\./.test(input.slice(match[0].length))`);
      -- a rejected match falls through to the float rule exactly like a
      -- failed one, so the lookahead test is folded into the option here.
      match (tryIntMatch input).filter
          (fun m => match m.2.2.2 with | '.' :: _ => false | _ => true) with
      | some (base, digits, matchedLen, r) =>
        tokenizeGo fuel file r line (column + matchedLen)
          (Token.integerLiteral (digitsToNat base digits) ⟨file, line, column⟩ :: tokens)
      | none =>
      -- Match float literals
      match tryFloatMatch input with
      | some (ip, fp, r) =>
        tokenizeGo fuel file r line (column + (ip.length + 1 + fp.length))
          (Token.floatLiteral (mkFloatVal (digitsToNat 10 ip) (digitsToNat 10 fp) fp.length)
            ⟨file, line, column⟩ :: tokens)
      | none =>
      -- Match string literals
      match tryStrMatch input with
      | some (inner, r) =>
        tokenizeGo fuel file r line (column + (inner.length + 2))
          (Token.stringLiteral (String.mk inner) ⟨file, line, column⟩ :: tokens)
      | none =>
      -- Match keywords and identifiers
      if (identSpan input).1 = [] then
        .error (.inputError ("Unexpected character: " ++ jsonStringifyChar c)
          ⟨file, line, column⟩)
      else if String.mk (identSpan input).1 ∈ keywords then
        tokenizeGo fuel file (identSpan input).2 line (column + (identSpan input).1.length)
          (Token.keyword (String.mk (identSpan input).1) ⟨file, line, column⟩ :: tokens)
      else
        tokenizeGo fuel file (identSpan input).2 line (column + (identSpan input).1.length)
          (Token.identifier (String.mk (identSpan input).1) ⟨file, line, column⟩ :: tokens)

/-- `tokenize(file, input)` of `tokenizer.ts`.  The fuel `length + 1`
always suffices (see `tokenize_terminates`). -/
def tokenize (file input : String) : Except TokErr (List Token) :=
  tokenizeGo (input.data.length + 1) file input.data 1 1 []

theorem spanP_rest_le (p : Char → Bool) (cs : List Char) :
    (spanP p cs).2.length ≤ cs.length := by
  have h := congrArg List.length (spanP_append p cs)
  simp only [List.length_append] at h
  omega

theorem spanP_rest_lt {p : Char → Bool} {cs : List Char}
    (h : (spanP p cs).1 ≠ []) : (spanP p cs).2.length < cs.length := by
  have h2 := congrArg List.length (spanP_append p cs)
  simp only [List.length_append] at h2
  have h3 : (spanP p cs).1.length ≠ 0 := by
    simpa using h
  omega

theorem tryNewline_lt {cs r : List Char} (h : tryNewline cs = some r) :
    r.length < cs.length := by
  unfold tryNewline at h
  split at h
  · simp_all
    omega
  · simp_all
  · simp_all

theorem tryLineComment_lt {cs r : List Char} (h : tryLineComment cs = some r) :
    r.length < cs.length := by
  unfold tryLineComment at h
  split at h
  · next r0 =>
    have h1 := tryNewline_lt h
    have h2 := spanP_rest_le isDotChar r0
    simp only [List.length_cons]
    omega
  · simp at h

theorem tryBlockComment_lt {cs m r : List Char}
    (h : tryBlockComment cs = some (m, r)) : r.length < cs.length := by
  unfold tryBlockComment at h
  split at h
  · next r0 =>
    rw [Option.map_eq_some'] at h
    obtain ⟨⟨i, r'⟩, hsome, heq⟩ := h
    obtain ⟨-, rfl⟩ : '/' :: '*' :: (i ++ ['*', '/']) = m ∧ r' = r := by
      simpa using heq
    have h2 := congrArg List.length (findBlockClose_sound hsome)
    simp only [List.length_append, List.length_cons] at h2 ⊢
    omega
  · simp at h

theorem firstSymbolMatch_lt {cs : List Char} {s : String} {r : List Char}
    (h : firstSymbolMatch orderedSymbols cs = some (s, r)) :
    r.length < cs.length := by
  obtain ⟨hmem, heq⟩ := firstSymbolMatch_sound h
  have hne : s.data.length ≠ 0 := by
    have : ∀ t ∈ orderedSymbols, t.data.length ≠ 0 := by decide
    exact this s hmem
  have h2 := congrArg List.length heq
  simp only [List.length_append] at h2
  omega

theorem tryPrefixedInt_lt {pre : Char} {isDig : Char → Bool} {cs ds r : List Char}
    (h : tryPrefixedInt pre isDig cs = some (ds, r)) : r.length < cs.length := by
  unfold tryPrefixedInt at h
  split at h
  · next p r1 =>
    split at h
    · split at h
      · next hne =>
        have hspan : spanP isDig r1 = (ds, r) := by simpa using h
        have := spanP_rest_le isDig r1
        rw [hspan] at this
        dsimp only at this
        simp only [List.length_cons]
        omega
      · simp at h
    · simp at h
  · simp at h

theorem tryIntMatch_lt {cs : List Char} {base : Nat} {ds : List Char}
    {len : Nat} {r : List Char}
    (h : tryIntMatch cs = some (base, ds, len, r)) : r.length < cs.length := by
  unfold tryIntMatch at h
  split at h
  · next heq =>
    obtain ⟨-, -, -, rfl⟩ :
        (16 : Nat) = base ∧ _ = ds ∧ _ = len ∧ _ = r := by simpa using h
    exact tryPrefixedInt_lt heq
  · split at h
    · next heq =>
      obtain ⟨-, -, -, rfl⟩ :
          (2 : Nat) = base ∧ _ = ds ∧ _ = len ∧ _ = r := by simpa using h
      exact tryPrefixedInt_lt heq
    · split at h
      · next heq =>
        obtain ⟨-, -, -, rfl⟩ :
            (8 : Nat) = base ∧ _ = ds ∧ _ = len ∧ _ = r := by simpa using h
        exact tryPrefixedInt_lt heq
      · split at h
        · next hne =>
          obtain ⟨-, -, -, rfl⟩ :
              (10 : Nat) = base ∧ _ = ds ∧ _ = len ∧ _ = r := by simpa using h
          exact spanP_rest_lt hne
        · simp at h

theorem tryFloatMatch_lt {cs ip fp r : List Char}
    (h : tryFloatMatch cs = some (ip, fp, r)) : r.length < cs.length := by
  unfold tryFloatMatch at h
  split at h
  · next hne =>
    split at h
    · next r2 heq2 =>
      split at h
      · next hne2 =>
        have hsp : spanP isDecDigit r2 = (fp, r) := by
          have := (by simpa using h : (spanP isDecDigit cs).1 = ip ∧ spanP isDecDigit r2 = (fp, r))
          exact this.2
        have h1 : (spanP isDecDigit cs).2.length < cs.length := spanP_rest_lt hne
        have h2 := spanP_rest_le isDecDigit r2
        rw [hsp] at h2
        dsimp only at h2
        rw [heq2] at h1
        simp only [List.length_cons] at h1
        omega
      · simp at h
    · simp at h
  · simp at h

theorem strLitBody_sound_aux (n : Nat) :
    ∀ (cs : List Char), cs.length ≤ n → ∀ {q : Char} {i r : List Char},
      strLitBody q cs = some (i, r) → cs = i ++ q :: r := by
  induction n with
  | zero =>
    intro cs hle q i r h
    match cs with
    | [] => simp [strLitBody] at h
    | c :: cs' => simp at hle
  | succ m ih =>
    intro cs hle q i r h
    match cs with
    | [] => simp [strLitBody] at h
    | c :: cs' =>
      simp only [List.length_cons, Nat.succ_le_succ_iff] at hle
      rw [strLitBody.eq_def] at h
      dsimp only at h
      split at h
      · next hq =>
        obtain ⟨rfl, rfl⟩ : ([] : List Char) = i ∧ cs' = r := by simpa using h
        simp [hq]
      · next hq =>
        split at h
        · next hb =>
          split at h
          · simp at h
          · next e cs'' =>
            split at h
            · next hdot =>
              rw [Option.map_eq_some'] at h
              obtain ⟨⟨i', r'⟩, hsome, heq⟩ := h
              obtain ⟨rfl, rfl⟩ : c :: e :: i' = i ∧ r' = r := by simpa using heq
              have hlen : cs''.length ≤ m := by
                simp only [List.length_cons] at hle
                omega
              have := ih cs'' hlen hsome
              rw [hb]
              simp [this]
            · simp at h
        · next hb =>
          rw [Option.map_eq_some'] at h
          obtain ⟨⟨i', r'⟩, hsome, heq⟩ := h
          obtain ⟨rfl, rfl⟩ : c :: i' = i ∧ r' = r := by simpa using heq
          have := ih cs' hle hsome
          simp [this]

theorem strLitBody_sound {q : Char} {cs i r : List Char}
    (h : strLitBody q cs = some (i, r)) : cs = i ++ q :: r :=
  strLitBody_sound_aux cs.length cs le_rfl h

theorem strLitBody_lt {q : Char} {cs i r : List Char}
    (h : strLitBody q cs = some (i, r)) : r.length < cs.length := by
  have h2 := congrArg List.length (strLitBody_sound h)
  simp only [List.length_append, List.length_cons] at h2
  omega

theorem tryStrMatch_lt {cs i r : List Char}
    (h : tryStrMatch cs = some (i, r)) : r.length < cs.length := by
  unfold tryStrMatch at h
  split at h
  · have := strLitBody_lt h
    simp only [List.length_cons]
    omega
  · have := strLitBody_lt h
    simp only [List.length_cons]
    omega
  · simp at h

theorem identSpan_rest_lt {cs : List Char} (h : (identSpan cs).1 ≠ []) :
    (identSpan cs).2.length < cs.length := by
  have h2 := congrArg List.length (identSpan_append cs)
  simp only [List.length_append] at h2
  have h3 : (identSpan cs).1.length ≠ 0 := by simpa using h
  omega

/-- Fuel sufficiency for the tokenizer loop: with more fuel than remaining
input characters, `tokenizeGo` never runs out of fuel — every iteration
either consumes at least one character or throws an `InputError`. -/
theorem tokenizeGo_no_fuelExhausted :
    ∀ (fuel : Nat) (file : String) (input : List Char) (line column : Nat)
      (tokens : List Token), input.length < fuel →
      tokenizeGo fuel file input line column tokens ≠ .error .fuelExhausted := by
  intro fuel
  induction fuel with
  | zero => intro _ _ _ _ _ h; omega
  | succ n ih =>
    intro file input line column tokens hlen
    match input with
    | [] => simp [tokenizeGo]
    | c :: cs =>
      rw [tokenizeGo]
      simp only [List.length_cons] at hlen
      split
      · next hws =>
        apply ih
        have := spanP_rest_lt hws
        simp only [List.length_cons] at this
        omega
      · next hws =>
        split
        · next r hnl =>
          apply ih
          have := tryNewline_lt hnl
          simp only [List.length_cons] at this
          omega
        · split
          · next r hlc =>
            apply ih
            have := tryLineComment_lt hlc
            simp only [List.length_cons] at this
            omega
          · split
            · next m r hbc =>
              apply ih
              have := tryBlockComment_lt hbc
              simp only [List.length_cons] at this
              omega
            · split
              · simp
              · split
                · next s r hsym =>
                  apply ih
                  have := firstSymbolMatch_lt hsym
                  simp only [List.length_cons] at this
                  omega
                · split
                  · next base ds len r hint =>
                    apply ih
                    rw [Option.filter_eq_some] at hint
                    have := tryIntMatch_lt hint.1
                    simp only [List.length_cons] at this
                    omega
                  · split
                    · next ip fp r hfl =>
                      apply ih
                      have := tryFloatMatch_lt hfl
                      simp only [List.length_cons] at this
                      omega
                    · split
                      · next inner r hsl =>
                        apply ih
                        have := tryStrMatch_lt hsl
                        simp only [List.length_cons] at this
                        omega
                      · split
                        · simp
                        · split
                          · next hid _ =>
                            apply ih
                            have := identSpan_rest_lt hid
                            simp only [List.length_cons] at this
                            omega
                          · next hid _ =>
                            apply ih
                            have := identSpan_rest_lt hid
                            simp only [List.length_cons] at this
                            omega

/-- C9: for every finite input string, `tokenize` terminates with a token
list or a thrown `InputError` — the fuel bound `input.length + 1` is never
exhausted, because each iteration of the main loop either consumes at
least one character of the remaining input or throws. -/
theorem tokenize_terminates (file input : String) :
    (∃ ts, tokenize file input = .ok ts) ∨
    (∃ msg loc, tokenize file input = .error (.inputError msg loc)) := by
  have hno : tokenize file input ≠ .error .fuelExhausted := by
    unfold tokenize
    exact tokenizeGo_no_fuelExhausted _ file input.data 1 1 [] (Nat.lt_succ_self _)
  cases h : tokenize file input with
  | ok ts => exact .inl ⟨ts, rfl⟩
  | error e =>
    cases e with
    | inputError msg loc => exact .inr ⟨msg, loc, rfl⟩
    | fuelExhausted => exact absurd h hno

/-- C4 (evaluation of the code at the claim's inputs): the lexer does try
symbols longest-first, so `a == b` lexes with a single `==`; but the
`symbols` table of `tokenizer.ts` does not contain `++` (or `--`), so
`a++` lexes as identifier `a` followed by two separate `+` symbols — not
by a `++` symbol as the specification (and the repository's own parser,
whose patterns require `++` symbol tokens) expects. -/
theorem tokenize_plusPlus_eval :
    tokenize "f" "a == b" =
      .ok [Token.identifier "a" ⟨"f", 1, 1⟩,
           Token.symbol "==" ⟨"f", 1, 3⟩,
           Token.identifier "b" ⟨"f", 1, 6⟩] ∧
    tokenize "f" "a++" =
      .ok [Token.identifier "a" ⟨"f", 1, 1⟩,
           Token.symbol "+" ⟨"f", 1, 2⟩,
           Token.symbol "+" ⟨"f", 1, 3⟩] ∧
    "++" ∉ symbols ∧ "--" ∉ symbols :=
  ⟨by rfl, by rfl, by decide, by decide⟩

/-- C5 counterexample: on the input `42.` the tokenizer does **not**
produce integer `42` followed by the tokens of what follows the dot — it
throws `Unexpected character` (at column 3, after the identifier rule has
consumed `42`). -/
theorem tokenize_fortyTwoDot_counterexample :
    tokenize "f" "42." = .error (.inputError "Unexpected character: \".\"" ⟨"f", 1, 3⟩) := by
  rfl

/-- C5 (amended): integer forms are tried hex, binary, octal, decimal and
accepted only when the next character is not `.`; `0x1F` → 31,
`0b1010` → 10, `0o17` → 15, `42.5` → float 42.5, `42` → 42.  `42.` with no
trailing digit is not a float: the integer rule rejects it because of the
`.`-lookahead, the leading `42` is then consumed by the identifier rule as
identifier `"42"` (first conjunct below: one loop iteration turns `42.`
into a pending `.` with identifier `"42"` emitted), after which the bare
`.` matches no rule and tokenization fails with `Unexpected character`. -/
theorem tokenize_integer_forms :
    (∀ n : Nat, tokenizeGo (n + 1) "f" "42.".data 1 1 [] =
        tokenizeGo n "f" ['.'] 1 3 [Token.identifier "42" ⟨"f", 1, 1⟩]) ∧
    tokenize "f" "0x1F" = .ok [Token.integerLiteral 31 ⟨"f", 1, 1⟩] ∧
    tokenize "f" "0b1010" = .ok [Token.integerLiteral 10 ⟨"f", 1, 1⟩] ∧
    tokenize "f" "0o17" = .ok [Token.integerLiteral 15 ⟨"f", 1, 1⟩] ∧
    tokenize "f" "42.5" = .ok [Token.floatLiteral 42.5 ⟨"f", 1, 1⟩] ∧
    tokenize "f" "42" = .ok [Token.integerLiteral 42 ⟨"f", 1, 1⟩] ∧
    tokenize "f" "42." = .error (.inputError "Unexpected character: \".\"" ⟨"f", 1, 3⟩) := by
  refine ⟨fun n => by rfl, by rfl, by rfl, by rfl, ?_, by rfl, by rfl⟩
  have hv : (42.5 : Rat) = mkFloatVal 42 5 1 := by norm_num [mkFloatVal]
  rw [hv]
  rfl

/-! ## Parser (`src/stages/parser.ts`)

The AST types.  The thirteen structurally identical `…BinaryExpression`
variants of the source are modelled as a single `binary` constructor
carrying the variant tag; Lean keywords force the constructor renamings
`variable` ↦ `varE`, `if` ↦ `ifS`, `while` ↦ `whileS`, `for` ↦ `forS`,
`break` ↦ `breakS`, `return` ↦ `returnS`, and the field `const` ↦
`isConst`. -/

/-- Tags of the thirteen binary expression variants, named after the
source's `type` strings. -/
inductive BinOp where
  | addition | subtraction | multiplication | division | modulo
  | bitwiseOr | bitwiseAnd
  | equality | inequality | lessThan | lessThanOrEqual | greaterThan | greaterThanOrEqual
deriving DecidableEq

/-- `Expression` of `parser.ts`. -/
inductive Expression where
  | integerLiteral (value : Int) (location : Location)
  | floatLiteral (value : Rat) (location : Location)
  | stringLiteral (value : String) (location : Location)
  | varE (identifier : String) (location : Location)
  | increment (identifier : String) (location : Location)
  | decrement (identifier : String) (location : Location)
  | subExpression (expression : Expression) (location : Location)
  | functionCall (functionIdentifier : String) (args : List Expression) (location : Location)
  | binary (type : BinOp) (left right : Expression) (location : Location)

/-- The `location` field shared by every expression variant. -/
def Expression.location : Expression → Location
  | .integerLiteral _ l => l
  | .floatLiteral _ l => l
  | .stringLiteral _ l => l
  | .varE _ l => l
  | .increment _ l => l
  | .decrement _ l => l
  | .subExpression _ l => l
  | .functionCall _ _ l => l
  | .binary _ _ _ l => l

/-- Function parameter entries (`{typeIdentifier, variableIdentifier,
location}`). -/
structure Param where
  typeIdentifier : String
  variableIdentifier : String
  location : Location
deriving DecidableEq

/-- `Statement` of `parser.ts`. -/
inductive Statement where
  | declaration (typeIdentifier variableIdentifier : String) (isConst : Bool)
      (location : Location)
  | declarationWithAssignment (typeIdentifier variableIdentifier : String)
      (isConst : Bool) (assignment : Expression) (location : Location)
  | assignment (variableIdentifier : String) (assignment : Expression)
      (location : Location)
  | increment (variableIdentifier : String) (location : Location)
  | decrement (variableIdentifier : String) (location : Location)
  | functionCall (functionIdentifier : String) (args : List Expression)
      (location : Location)
  | scope (statements : List Statement) (location : Location)
  | ifS (blocks : List (Expression × List Statement))
      (elseBlock : Option (List Statement)) (location : Location)
  | whileS (condition : Expression) (statements : List Statement) (doWhile : Bool)
      (location : Location)
  | forS (initialization : Option Statement) (condition : Option Expression)
      (action : Option Statement) (statements : List Statement) (location : Location)
  | breakS (location : Location)
  | functionDeclaration (functionIdentifier : String) (parameters : List Param)
      (returnType : String) (statements : List Statement) (location : Location)
  | returnS (expression : Option Expression) (location : Location)

/-- The `binaryOperators` object, as an association list in insertion
order (`Object.entries` order). -/
def binaryOperators : List (BinOp × String) :=
  [(.addition, "+"), (.subtraction, "-"), (.multiplication, "*"),
   (.division, "/"), (.modulo, "%"), (.bitwiseOr, "|"), (.bitwiseAnd, "&"),
   (.equality, "=="), (.inequality, "!="), (.lessThan, "<"),
   (.lessThanOrEqual, "<="), (.greaterThan, ">"), (.greaterThanOrEqual, ">=")]

/-- `binaryOperatorPrecedence`. -/
def binaryOperatorPrecedence : BinOp → Nat
  | .equality | .inequality | .lessThan | .lessThanOrEqual
  | .greaterThan | .greaterThanOrEqual => 0
  | .bitwiseOr => 1
  | .bitwiseAnd => 2
  | .addition | .subtraction => 3
  | .multiplication | .division | .modulo => 4

inductive Assoc where
  | left | right
deriving DecidableEq

/-- `binaryOperatorAssociativity` (every operator is `'left'`). -/
def binaryOperatorAssociativity : BinOp → Assoc := fun _ => .left

/-- `Object.entries(binaryOperators).find(([k, v]) => v === sym)`,
combined with the preceding `Object.values(...).includes` membership
test: the first operator whose symbol text is `sym`. -/
def findBinOp (sym : String) : Option BinOp :=
  (binaryOperators.find? (fun p => p.2 = sym)).map (·.1)

/-- Element types of a `Pattern`: the six token types plus the five
recursive placeholders. -/
inductive PatType where
  | symbol | keyword | identifier | integerLiteral | floatLiteral | stringLiteral
  | expression | parameters | arguments | statements | primitiveStatement
deriving DecidableEq

/-- One pattern element `{type, value?, optional?}`.  (In the source the
`type` key is technically optional and `value` may be an array, but no
pattern in the program uses either; values are always strings.) -/
structure PatElem where
  type : PatType
  value : Option String := none
  optional : Bool := false
deriving DecidableEq

/-- `token.type === patternToken.type` for token-type pattern elements. -/
def tokenHasType (t : Token) (ty : PatType) : Bool :=
  match t, ty with
  | .symbol .., .symbol => true
  | .keyword .., .keyword => true
  | .identifier .., .identifier => true
  | .integerLiteral .., .integerLiteral => true
  | .floatLiteral .., .floatLiteral => true
  | .stringLiteral .., .stringLiteral => true
  | _, _ => false

/-- `token.value === patternToken.value` — a numeric token value never
equals a string pattern value. -/
def tokenValueEq (t : Token) (v : String) : Bool :=
  match t with
  | .symbol s _ => s = v
  | .keyword s _ => s = v
  | .identifier s _ => s = v
  | .stringLiteral s _ => s = v
  | .integerLiteral _ _ => false
  | .floatLiteral _ _ => false

/-- The `location` field of a token. -/
def Token.location : Token → Location
  | .symbol _ l => l
  | .keyword _ l => l
  | .identifier _ l => l
  | .integerLiteral _ l => l
  | .floatLiteral _ l => l
  | .stringLiteral _ l => l

/-- Entries of the positional `match` array built by `matchPattern`:
matched token, `null` (skipped optional), or a recursive placeholder
result. -/
inductive MatchItem where
  | tok (t : Token)
  | nul
  | expr (e : Expression)
  | args (es : List Expression)
  | params (ps : List Param)
  | stmts (ss : List Statement)
  | stmt (s : Statement)

/-- Parser errors: thrown `InputError`s, plain internal `Error`s of
`matchPattern`'s primitive-statement checks, the JavaScript `TypeError`
that reading `tokens[0].location` of an empty list would raise, and fuel
exhaustion of the embedding. -/
inductive PErr where
  | inputError (message : String) (location : Location)
  | internalError (message : String)
  | typeError
  | fuelExhausted
deriving DecidableEq

/-- `isToken` of `parser.ts`: `'type' in pattern && 'value' in pattern`;
in this model `type` is always present, so the test is the presence of a
`value`. -/
def PatElem.isToken (p : PatElem) : Bool := p.value.isSome

/-- `tokens[i].location`, or the JavaScript `TypeError` on out-of-range
access. -/
def tokenLocAt (tokens : List Token) (i : Nat) : Except PErr Location :=
  match tokens.get? i with
  | some t => .ok t.location
  | none => .error .typeError

/-- Shorthands for the pattern elements appearing in the source's
patterns. -/
def pSym (v : String) : PatElem := ⟨.symbol, some v, false⟩

def pSymOpt (v : String) : PatElem := ⟨.symbol, some v, true⟩

def pKw (v : String) : PatElem := ⟨.keyword, some v, false⟩

def pKwOpt (v : String) : PatElem := ⟨.keyword, some v, true⟩

def pIdent : PatElem := ⟨.identifier, none, false⟩

def pInt : PatElem := ⟨.integerLiteral, none, false⟩

def pFloat : PatElem := ⟨.floatLiteral, none, false⟩

def pStr : PatElem := ⟨.stringLiteral, none, false⟩

def pExpr : PatElem := ⟨.expression, none, false⟩

def pExprOpt : PatElem := ⟨.expression, none, true⟩

def pParams : PatElem := ⟨.parameters, none, false⟩

def pArgs : PatElem := ⟨.arguments, none, false⟩

def pStmts : PatElem := ⟨.statements, none, false⟩

def pPrim : PatElem := ⟨.primitiveStatement, none, false⟩

/-- The default terminator of `parseStatement`
(`{ type: 'symbol', value: ';' }`). -/
def semicolonTerm : PatElem := pSym ";"

/-- The token-type (non-placeholder) pattern element types. -/
def PatType.isLiteralTok : PatType → Bool
  | .symbol | .keyword | .identifier | .integerLiteral | .floatLiteral
  | .stringLiteral => true
  | _ => false

/-- The literal-element mismatch test of `matchPattern`:
`(patternToken.type !== undefined && token.type !== patternToken.type) ||
('value' in patternToken && patternToken.value !== undefined &&
token.value !== patternToken.value)`. -/
def literalMismatch (elem : PatElem) (token : Token) : Bool :=
  !(tokenHasType token elem.type) ||
    (match elem.value with
     | some v => !(tokenValueEq token v)
     | none => false)

/-- The internal-error message used when a successful pattern match does
not have the statically known positional shape (impossible at runtime; the
TypeScript version encodes the shape in the type of `matchPattern`). -/
def shapeErr {α : Type} : Except PErr α := .error (.internalError "unexpected match shape")

mutual

/-- `matchPattern(tokens, pattern)` of `parser.ts`. -/
def matchPattern (fuel : Nat) (tokens : List Token) (pattern : List PatElem) :
    Except PErr (Option (List MatchItem) × Nat) :=
  match fuel with
  | 0 => .error .fuelExhausted
  | fuel + 1 => matchPatternGo fuel tokens pattern 0 false []
termination_by structural fuel

/-- The `for (let patternIndex …)` loop of `matchPattern`: `tokenIndex`
and `throwOnError` are the mutable locals, `acc` the `match` array built
so far (reversed).  Each pattern-element kind is handled by its own
helper below. -/
def matchPatternGo (fuel : Nat) (tokens : List Token) (pat : List PatElem)
    (tokenIndex : Nat) (throwOnError : Bool) (acc : List MatchItem) :
    Except PErr (Option (List MatchItem) × Nat) :=
  match fuel with
  | 0 => .error .fuelExhausted
  | fuel + 1 =>
    match pat with
    | [] => .ok (some acc.reverse, tokenIndex)
    | elem :: pat' =>
      if tokenIndex ≥ tokens.length then .ok (none, 0)
      else
        match elem.type with
        | .expression => goExpression fuel tokens elem pat' tokenIndex acc
        | .parameters => goParameters fuel tokens elem pat' tokenIndex acc
        | .arguments => goArguments fuel tokens elem pat' tokenIndex acc
        | .statements => goStatements fuel tokens elem pat' tokenIndex acc
        | .primitiveStatement => goPrimitive fuel tokens elem pat' tokenIndex acc
        | _ => goLiteral fuel tokens elem pat' tokenIndex throwOnError acc
termination_by structural fuel

/-- The `'expression'` placeholder case of `matchPattern`: parse, or on a
caught `InputError` with `optional` push `null`; either way
`throwOnError` becomes `true`. -/
def goExpression (fuel : Nat) (tokens : List Token) (elem : PatElem)
    (pat' : List PatElem) (tokenIndex : Nat) (acc : List MatchItem) :
    Except PErr (Option (List MatchItem) × Nat) :=
  match fuel with
  | 0 => .error .fuelExhausted
  | fuel + 1 =>
    match parseExpression fuel (tokens.drop tokenIndex) with
    | .ok (e, cnt) =>
      matchPatternGo fuel tokens pat' (tokenIndex + cnt) true (.expr e :: acc)
    | .error (.inputError msg loc) =>
      if elem.optional then
        matchPatternGo fuel tokens pat' tokenIndex true (.nul :: acc)
      else .error (.inputError msg loc)
    | .error e => .error e
termination_by structural fuel

/-- The `'parameters'` placeholder case of `matchPattern`. -/
def goParameters (fuel : Nat) (tokens : List Token) (_elem : PatElem)
    (pat' : List PatElem) (tokenIndex : Nat) (acc : List MatchItem) :
    Except PErr (Option (List MatchItem) × Nat) :=
  match fuel with
  | 0 => .error .fuelExhausted
  | fuel + 1 =>
    match matchPattern fuel (tokens.drop tokenIndex) [pIdent, pIdent] with
    | .ok (none, _) =>
      matchPatternGo fuel tokens pat' tokenIndex true (.params [] :: acc)
    | .ok (some [.tok (.identifier v1 _), .tok (.identifier v2 l2)], cnt) =>
      if tokenIndex + cnt ≥ tokens.length then .ok (none, 0)
      else
        match matchParamsLoop fuel tokens (tokenIndex + cnt) [⟨v1, v2, l2⟩] with
        | .ok none => .ok (none, 0)
        | .ok (some (ps, i')) =>
          matchPatternGo fuel tokens pat' i' true (.params ps.reverse :: acc)
        | .error e => .error e
    | .ok (some _, _) => shapeErr
    | .error e => .error e
termination_by structural fuel

/-- The `'arguments'` placeholder case of `matchPattern`. -/
def goArguments (fuel : Nat) (tokens : List Token) (_elem : PatElem)
    (pat' : List PatElem) (tokenIndex : Nat) (acc : List MatchItem) :
    Except PErr (Option (List MatchItem) × Nat) :=
  match fuel with
  | 0 => .error .fuelExhausted
  | fuel + 1 =>
    match parseExpression fuel (tokens.drop tokenIndex) with
    | .error (.inputError _ _) =>
      matchPatternGo fuel tokens pat' tokenIndex true (.args [] :: acc)
    | .error e => .error e
    | .ok (e, cnt) =>
      if tokenIndex + cnt ≥ tokens.length then .ok (none, 0)
      else
        match matchArgsLoop fuel tokens (tokenIndex + cnt) [e] with
        | .ok none => .ok (none, 0)
        | .ok (some (es, i')) =>
          matchPatternGo fuel tokens pat' i' true (.args es.reverse :: acc)
        | .error e => .error e
termination_by structural fuel

/-- The `'statements'` placeholder case of `matchPattern`. -/
def goStatements (fuel : Nat) (tokens : List Token) (_elem : PatElem)
    (pat' : List PatElem) (tokenIndex : Nat) (acc : List MatchItem) :
    Except PErr (Option (List MatchItem) × Nat) :=
  match fuel with
  | 0 => .error .fuelExhausted
  | fuel + 1 =>
    match matchStmtsLoop fuel tokens tokenIndex [] with
    | .ok none => .ok (none, 0)
    | .ok (some (ss, i')) =>
      matchPatternGo fuel tokens pat' i' true (.stmts ss.reverse :: acc)
    | .error e => .error e
termination_by structural fuel

/-- The `'primitive-statement'` placeholder case of `matchPattern`. -/
def goPrimitive (fuel : Nat) (tokens : List Token) (_elem : PatElem)
    (pat' : List PatElem) (tokenIndex : Nat) (acc : List MatchItem) :
    Except PErr (Option (List MatchItem) × Nat) :=
  match fuel with
  | 0 => .error .fuelExhausted
  | fuel + 1 =>
    match pat' with
    | [] => .error (.internalError "No terminator following primitive statement pattern")
    | nextElem :: _ =>
      if !nextElem.isToken then
        .error (.internalError "Invalid terminator following primitive statement pattern")
      else
        match parsePrimitiveStatement fuel (tokens.drop tokenIndex) nextElem with
        | .ok (none, _) =>
          (match tokenLocAt tokens tokenIndex with
           | .ok loc => .error (.inputError "Invalid statement" loc)
           | .error e => .error e)
        | .ok (some s, cnt) =>
          matchPatternGo fuel tokens pat' (tokenIndex + cnt - 1) true (.stmt s :: acc)
        | .error e => .error e
termination_by structural fuel

/-- The literal token-element case of `matchPattern`: mismatch on an
optional element pushes `null`, otherwise a committed matcher
(`throwOnError`) raises `Unexpected token` and an uncommitted one fails
silently with `[null, 0]`. -/
def goLiteral (fuel : Nat) (tokens : List Token) (elem : PatElem)
    (pat' : List PatElem) (tokenIndex : Nat) (throwOnError : Bool)
    (acc : List MatchItem) : Except PErr (Option (List MatchItem) × Nat) :=
  match fuel with
  | 0 => .error .fuelExhausted
  | fuel + 1 =>
    match tokens.get? tokenIndex with
    | none => .ok (none, 0)
    | some token =>
      if literalMismatch elem token then
        if elem.optional then
          matchPatternGo fuel tokens pat' tokenIndex throwOnError (.nul :: acc)
        else if throwOnError then
          .error (.inputError "Unexpected token" token.location)
        else .ok (none, 0)
      else
        matchPatternGo fuel tokens pat' (tokenIndex + 1) throwOnError (.tok token :: acc)
termination_by structural fuel

/-- The comma loop of the `parameters` placeholder.  `none` models the
`return [null, 0]` that aborts the enclosing `matchPattern`. -/
def matchParamsLoop (fuel : Nat) (tokens : List Token) (i : Nat) (acc : List Param) :
    Except PErr (Option (List Param × Nat)) :=
  match fuel with
  | 0 => .error .fuelExhausted
  | fuel + 1 =>
    match tokens.get? i with
    | some (.symbol "," _) =>
      match matchPattern fuel (tokens.drop (i + 1)) [pIdent, pIdent] with
      | .ok (none, _) =>
        (match tokenLocAt tokens (i + 1) with
         | .ok loc => .error (.inputError "Invalid parameter" loc)
         | .error e => .error e)
      | .ok (some [.tok (.identifier v1 _), .tok (.identifier v2 l2)], cnt) =>
        if i + 1 + cnt ≥ tokens.length then .ok none
        else matchParamsLoop fuel tokens (i + 1 + cnt) (⟨v1, v2, l2⟩ :: acc)
      | .ok (some _, _) => shapeErr
      | .error e => .error e
    | _ => .ok (some (acc, i))
termination_by structural fuel

/-- The comma loop of the `arguments` placeholder. -/
def matchArgsLoop (fuel : Nat) (tokens : List Token) (i : Nat) (acc : List Expression) :
    Except PErr (Option (List Expression × Nat)) :=
  match fuel with
  | 0 => .error .fuelExhausted
  | fuel + 1 =>
    match tokens.get? i with
    | some (.symbol "," _) =>
      match parseExpression fuel (tokens.drop (i + 1)) with
      | .ok (e, cnt) =>
        if i + 1 + cnt ≥ tokens.length then .ok none
        else matchArgsLoop fuel tokens (i + 1 + cnt) (e :: acc)
      | .error e => .error e
    | _ => .ok (some (acc, i))
termination_by structural fuel

/-- The statement loop of the `statements` placeholder. -/
def matchStmtsLoop (fuel : Nat) (tokens : List Token) (i : Nat) (acc : List Statement) :
    Except PErr (Option (List Statement × Nat)) :=
  match fuel with
  | 0 => .error .fuelExhausted
  | fuel + 1 =>
    match parseStatement fuel (tokens.drop i) semicolonTerm with
    | .ok (none, _) => .ok (some (acc, i))
    | .ok (some s, cnt) =>
      if i + cnt ≥ tokens.length then .ok none
      else matchStmtsLoop fuel tokens (i + cnt) (s :: acc)
    | .error e => .error e
termination_by structural fuel

/-- `parseExpression`. -/
def parseExpression (fuel : Nat) (tokens : List Token) : Except PErr (Expression × Nat) :=
  match fuel with
  | 0 => .error .fuelExhausted
  | fuel + 1 => parseBinaryExpression fuel tokens 0
termination_by structural fuel

/-- `parseBinaryExpression(tokens, precedence)`: primitive LHS followed by
the operator loop. -/
def parseBinaryExpression (fuel : Nat) (tokens : List Token) (precedence : Nat) :
    Except PErr (Expression × Nat) :=
  match fuel with
  | 0 => .error .fuelExhausted
  | fuel + 1 =>
    match parsePrimitiveExpression fuel tokens with
    | .ok (result, cnt) => parseBinaryLoop fuel (tokens.drop cnt) precedence result cnt
    | .error e => .error e
termination_by structural fuel

/-- The `while` loop of `parseBinaryExpression`; `tokens` is already
advanced past the tokens consumed so far (`tokenCount`). -/
def parseBinaryLoop (fuel : Nat) (tokens : List Token) (precedence : Nat)
    (result : Expression) (tokenCount : Nat) : Except PErr (Expression × Nat) :=
  match fuel with
  | 0 => .error .fuelExhausted
  | fuel + 1 =>
    match tokens with
    | .symbol v _ :: rest =>
      match findBinOp v with
      | some op =>
        if binaryOperatorPrecedence op < precedence then .ok (result, tokenCount)
        else
          match parseBinaryExpression fuel rest
              (binaryOperatorPrecedence op +
                (if binaryOperatorAssociativity op = .left then 1 else 0)) with
          | .ok (right, rcnt) =>
            parseBinaryLoop fuel (rest.drop rcnt) precedence
              (.binary op result right result.location) (tokenCount + 1 + rcnt)
          | .error e => .error e
      | none => .ok (result, tokenCount)
    | _ => .ok (result, tokenCount)
termination_by structural fuel

/-- `parsePrimitiveExpression`, with its eight alternatives in source
order; an empty token list makes the final `tokens[0].location` access a
`TypeError`. -/
def parsePrimitiveExpression (fuel : Nat) (tokens : List Token) :
    Except PErr (Expression × Nat) :=
  match fuel with
  | 0 => .error .fuelExhausted
  | fuel + 1 =>
    -- Parse integer literal
    match matchPattern fuel tokens [pSymOpt "-", pInt] with
    | .error e => .error e
    | .ok (some [.nul, .tok (.integerLiteral v l)], cnt) =>
      .ok (.integerLiteral (v : Int) l, cnt)
    | .ok (some [.tok _, .tok (.integerLiteral v l)], cnt) =>
      .ok (.integerLiteral (-(v : Int)) l, cnt)
    | .ok (some _, _) => shapeErr
    | .ok (none, _) =>
    -- Parse float literal
    match matchPattern fuel tokens [pSymOpt "-", pFloat] with
    | .error e => .error e
    | .ok (some [.nul, .tok (.floatLiteral v l)], cnt) =>
      .ok (.floatLiteral v l, cnt)
    | .ok (some [.tok _, .tok (.floatLiteral v l)], cnt) =>
      .ok (.floatLiteral (-v) l, cnt)
    | .ok (some _, _) => shapeErr
    | .ok (none, _) =>
    -- Parse string literal
    match matchPattern fuel tokens [pStr] with
    | .error e => .error e
    | .ok (some [.tok (.stringLiteral s l)], cnt) => .ok (.stringLiteral s l, cnt)
    | .ok (some _, _) => shapeErr
    | .ok (none, _) =>
    -- Parse function call
    match matchPattern fuel tokens [pIdent, pSym "(", pArgs, pSym ")"] with
    | .error e => .error e
    | .ok (some [.tok (.identifier fn fl), _, .args es, _], cnt) =>
      .ok (.functionCall fn es fl, cnt)
    | .ok (some _, _) => shapeErr
    | .ok (none, _) =>
    -- Parse increment
    match matchPattern fuel tokens [pIdent, pSym "++"] with
    | .error e => .error e
    | .ok (some [.tok (.identifier v vl), _], cnt) => .ok (.increment v vl, cnt)
    | .ok (some _, _) => shapeErr
    | .ok (none, _) =>
    -- Parse decrement
    match matchPattern fuel tokens [pIdent, pSym "--"] with
    | .error e => .error e
    | .ok (some [.tok (.identifier v vl), _], cnt) => .ok (.decrement v vl, cnt)
    | .ok (some _, _) => shapeErr
    | .ok (none, _) =>
    -- Parse variable
    match matchPattern fuel tokens [pIdent] with
    | .error e => .error e
    | .ok (some [.tok (.identifier v vl)], cnt) => .ok (.varE v vl, cnt)
    | .ok (some _, _) => shapeErr
    | .ok (none, _) =>
    -- Parse sub-expression
    match matchPattern fuel tokens [pSym "(", pExpr, pSym ")"] with
    | .error e => .error e
    | .ok (some [.tok op, .expr e, _], cnt) =>
      .ok (.subExpression e op.location, cnt)
    | .ok (some _, _) => shapeErr
    | .ok (none, _) =>
      match tokenLocAt tokens 0 with
      | .ok loc => .error (.inputError "Invalid expression" loc)
      | .error e => .error e
termination_by structural fuel

/-- `parsePrimitiveStatement(tokens, terminator)`, six alternatives in
source order. -/
def parsePrimitiveStatement (fuel : Nat) (tokens : List Token) (terminator : PatElem) :
    Except PErr (Option Statement × Nat) :=
  match fuel with
  | 0 => .error .fuelExhausted
  | fuel + 1 =>
    -- Parse declaration
    match matchPattern fuel tokens [pKwOpt "const", pIdent, pIdent, terminator] with
    | .error e => .error e
    | .ok (some [c, .tok (.identifier ty _), .tok (.identifier v vl), _], cnt) =>
      .ok (some (.declaration ty v
        (match c with | .nul => false | _ => true) vl), cnt)
    | .ok (some _, _) => shapeErr
    | .ok (none, _) =>
    -- Parse declaration with assignment
    match matchPattern fuel tokens
        [pKwOpt "const", pIdent, pIdent, pSym "=", pExpr, terminator] with
    | .error e => .error e
    | .ok (some [c, .tok (.identifier ty _), .tok (.identifier v vl), _, .expr a, _], cnt) =>
      .ok (some (.declarationWithAssignment ty v
        (match c with | .nul => false | _ => true) a vl), cnt)
    | .ok (some _, _) => shapeErr
    | .ok (none, _) =>
    -- Parse assignment
    match matchPattern fuel tokens [pIdent, pSym "=", pExpr, terminator] with
    | .error e => .error e
    | .ok (some [.tok (.identifier v vl), _, .expr a, _], cnt) =>
      .ok (some (.assignment v a vl), cnt)
    | .ok (some _, _) => shapeErr
    | .ok (none, _) =>
    -- Parse increment
    match matchPattern fuel tokens [pIdent, pSym "++", terminator] with
    | .error e => .error e
    | .ok (some [.tok (.identifier v vl), _, _], cnt) =>
      .ok (some (.increment v vl), cnt)
    | .ok (some _, _) => shapeErr
    | .ok (none, _) =>
    -- Parse decrement
    match matchPattern fuel tokens [pIdent, pSym "--", terminator] with
    | .error e => .error e
    | .ok (some [.tok (.identifier v vl), _, _], cnt) =>
      .ok (some (.decrement v vl), cnt)
    | .ok (some _, _) => shapeErr
    | .ok (none, _) =>
    -- Parse function call
    match matchPattern fuel tokens [pIdent, pSym "(", pArgs, pSym ")", terminator] with
    | .error e => .error e
    | .ok (some [.tok (.identifier fn fl), _, .args es, _, _], cnt) =>
      .ok (some (.functionCall fn es fl), cnt)
    | .ok (some _, _) => shapeErr
    | .ok (none, _) => .ok (none, 0)
termination_by structural fuel

/-- `parseStatement(tokens, terminator = ';')`, alternatives in source
order. -/
def parseStatement (fuel : Nat) (tokens : List Token) (terminator : PatElem) :
    Except PErr (Option Statement × Nat) :=
  match fuel with
  | 0 => .error .fuelExhausted
  | fuel + 1 =>
    -- Parse primitive statement
    match parsePrimitiveStatement fuel tokens terminator with
    | .error e => .error e
    | .ok (some s, cnt) => .ok (some s, cnt)
    | .ok (none, _) =>
    -- Parse scope
    match matchPattern fuel tokens [pSym "\x7b", pStmts, pSym "\x7d"] with
    | .error e => .error e
    | .ok (some [.tok ob, .stmts ss, _], cnt) =>
      .ok (some (.scope ss ob.location), cnt)
    | .ok (some _, _) => shapeErr
    | .ok (none, _) =>
    -- Parse if
    match matchPattern fuel tokens
        [pKw "if", pSym "(", pExpr, pSym ")", pSym "\x7b", pStmts, pSym "\x7d"] with
    | .error e => .error e
    | .ok (some [.tok ifTok, _, .expr cond, _, _, .stmts ss, _], cnt) =>
      (match ifElseIfLoop fuel tokens cnt [(cond, ss)] with
       | .error e => .error e
       | .ok (blocks, total) =>
         match matchPattern fuel (tokens.drop total)
             [pKw "else", pSym "\x7b", pStmts, pSym "\x7d"] with
         | .error e => .error e
         | .ok (some [_, _, .stmts es, _], cnt2) =>
           .ok (some (.ifS blocks (some es) ifTok.location), total + cnt2)
         | .ok (some _, _) => shapeErr
         | .ok (none, _) => .ok (some (.ifS blocks none ifTok.location), total))
    | .ok (some _, _) => shapeErr
    | .ok (none, _) =>
    -- Parse while
    match matchPattern fuel tokens
        [pKw "while", pSym "(", pExpr, pSym ")", pSym "\x7b", pStmts, pSym "\x7d"] with
    | .error e => .error e
    | .ok (some [.tok w, _, .expr cond, _, _, .stmts ss, _], cnt) =>
      .ok (some (.whileS cond ss false w.location), cnt)
    | .ok (some _, _) => shapeErr
    | .ok (none, _) =>
    -- Parse do-while
    match matchPattern fuel tokens
        [pKw "do", pSym "\x7b", pStmts, pSym "\x7d", pKw "while",
         pSym "(", pExpr, pSym ")", pSym ";"] with
    | .error e => .error e
    | .ok (some [.tok d, _, .stmts ss, _, _, _, .expr cond, _, _], cnt) =>
      .ok (some (.whileS cond ss true d.location), cnt)
    | .ok (some _, _) => shapeErr
    | .ok (none, _) =>
    -- Parse for
    match matchPattern fuel tokens
        [pKw "for", pSym "(", pPrim, pSym ";", pExpr, pSym ";", pPrim,
         pSym ")", pSym "\x7b", pStmts, pSym "\x7d"] with
    | .error e => .error e
    | .ok (some [.tok f, _, .stmt ini, _, .expr cond, _, .stmt act, _, _, .stmts ss, _], cnt) =>
      .ok (some (.forS (some ini) (some cond) (some act) ss f.location), cnt)
    | .ok (some _, _) => shapeErr
    | .ok (none, _) =>
    -- Parse break
    match matchPattern fuel tokens [pKw "break", pSym ";"] with
    | .error e => .error e
    | .ok (some [.tok b, _], cnt) => .ok (some (.breakS b.location), cnt)
    | .ok (some _, _) => shapeErr
    | .ok (none, _) =>
    -- Parse function declaration
    match matchPattern fuel tokens
        [pIdent, pIdent, pSym "(", pParams, pSym ")", pSym "\x7b", pStmts, pSym "\x7d"] with
    | .error e => .error e
    | .ok (some [.tok (.identifier rt _), .tok (.identifier fn fl), _, .params ps, _, _,
        .stmts ss, _], cnt) =>
      .ok (some (.functionDeclaration fn ps rt ss fl), cnt)
    | .ok (some _, _) => shapeErr
    | .ok (none, _) =>
    -- Parse return
    match matchPattern fuel tokens [pKw "return", pExprOpt, pSym ";"] with
    | .error e => .error e
    | .ok (some [.tok r, .expr e, _], cnt) =>
      .ok (some (.returnS (some e) r.location), cnt)
    | .ok (some [.tok r, .nul, _], cnt) =>
      .ok (some (.returnS none r.location), cnt)
    | .ok (some _, _) => shapeErr
    | .ok (none, _) => .ok (none, 0)
termination_by structural fuel

/-- The `while (true)` loop collecting `else if` blocks in the `if`
alternative of `parseStatement`. -/
def ifElseIfLoop (fuel : Nat) (tokens : List Token) (total : Nat)
    (blocks : List (Expression × List Statement)) :
    Except PErr (List (Expression × List Statement) × Nat) :=
  match fuel with
  | 0 => .error .fuelExhausted
  | fuel + 1 =>
    match matchPattern fuel (tokens.drop total)
        [pKw "else", pKw "if", pSym "(", pExpr, pSym ")", pSym "\x7b",
         pStmts, pSym "\x7d"] with
    | .error e => .error e
    | .ok (none, _) => .ok (blocks, total)
    | .ok (some [_, _, _, .expr cond, _, _, .stmts ss, _], cnt) =>
      ifElseIfLoop fuel tokens (total + cnt) (blocks ++ [(cond, ss)])
    | .ok (some _, _) => shapeErr
termination_by structural fuel

/-- The top-level `parse(tokens)` loop, with accumulated statements
(reversed). -/
def parseTop (fuel : Nat) (tokens : List Token) (acc : List Statement) :
    Except PErr (List Statement) :=
  match fuel with
  | 0 => .error .fuelExhausted
  | fuel + 1 =>
    match tokens with
    | [] => .ok acc.reverse
    | t :: _ =>
      match parseStatement fuel tokens semicolonTerm with
      | .error e => .error e
      | .ok (none, _) => .error (.inputError "Invalid statement" t.location)
      | .ok (some s, cnt) => parseTop fuel (tokens.drop cnt) (s :: acc)
termination_by structural fuel

end

/-- `parse(tokens)` of `parser.ts`, with an explicit fuel. -/
def parse (fuel : Nat) (tokens : List Token) : Except PErr (List Statement) :=
  parseTop fuel tokens []

/-- C3: expression parsing is precedence climbing with every binary
operator left-associative (the recursive right-hand parse runs at
precedence `p + 1`): `1 + 2 * 3` parses as `+(1, *(2, 3))`,
`1 == 2 + 3` as `==(1, +(2, 3))`, `1 | 2 & 3` as `|(1, &(2, 3))`, and
`1 - 2 - 3` as `-(-(1, 2), 3)` (token streams as produced by `tokenize`
on those inputs; binary nodes carry their LHS's location). -/
theorem parseExpression_precedence_examples :
    (∀ op, binaryOperatorAssociativity op = .left) ∧
    parseExpression 100
      [Token.integerLiteral 1 ⟨"f", 1, 1⟩, Token.symbol "+" ⟨"f", 1, 3⟩,
       Token.integerLiteral 2 ⟨"f", 1, 5⟩, Token.symbol "*" ⟨"f", 1, 7⟩,
       Token.integerLiteral 3 ⟨"f", 1, 9⟩] =
      .ok (.binary .addition (.integerLiteral 1 ⟨"f", 1, 1⟩)
        (.binary .multiplication (.integerLiteral 2 ⟨"f", 1, 5⟩)
          (.integerLiteral 3 ⟨"f", 1, 9⟩) ⟨"f", 1, 5⟩) ⟨"f", 1, 1⟩, 5) ∧
    parseExpression 100
      [Token.integerLiteral 1 ⟨"f", 1, 1⟩, Token.symbol "==" ⟨"f", 1, 3⟩,
       Token.integerLiteral 2 ⟨"f", 1, 6⟩, Token.symbol "+" ⟨"f", 1, 8⟩,
       Token.integerLiteral 3 ⟨"f", 1, 10⟩] =
      .ok (.binary .equality (.integerLiteral 1 ⟨"f", 1, 1⟩)
        (.binary .addition (.integerLiteral 2 ⟨"f", 1, 6⟩)
          (.integerLiteral 3 ⟨"f", 1, 10⟩) ⟨"f", 1, 6⟩) ⟨"f", 1, 1⟩, 5) ∧
    parseExpression 100
      [Token.integerLiteral 1 ⟨"f", 1, 1⟩, Token.symbol "|" ⟨"f", 1, 3⟩,
       Token.integerLiteral 2 ⟨"f", 1, 5⟩, Token.symbol "&" ⟨"f", 1, 7⟩,
       Token.integerLiteral 3 ⟨"f", 1, 9⟩] =
      .ok (.binary .bitwiseOr (.integerLiteral 1 ⟨"f", 1, 1⟩)
        (.binary .bitwiseAnd (.integerLiteral 2 ⟨"f", 1, 5⟩)
          (.integerLiteral 3 ⟨"f", 1, 9⟩) ⟨"f", 1, 5⟩) ⟨"f", 1, 1⟩, 5) ∧
    parseExpression 100
      [Token.integerLiteral 1 ⟨"f", 1, 1⟩, Token.symbol "-" ⟨"f", 1, 3⟩,
       Token.integerLiteral 2 ⟨"f", 1, 5⟩, Token.symbol "-" ⟨"f", 1, 7⟩,
       Token.integerLiteral 3 ⟨"f", 1, 9⟩] =
      .ok (.binary .subtraction
        (.binary .subtraction (.integerLiteral 1 ⟨"f", 1, 1⟩)
          (.integerLiteral 2 ⟨"f", 1, 5⟩) ⟨"f", 1, 1⟩)
        (.integerLiteral 3 ⟨"f", 1, 9⟩) ⟨"f", 1, 1⟩, 5) :=
  ⟨fun op => rfl, by rfl, by rfl, by rfl, by rfl⟩

/-- C2 counterexample: with the `return`-statement pattern
`[expression (optional), ';']` and the single token `)`, the optional
`expression` placeholder **fails** (first conjunct: `parseExpression`
throws `Invalid expression`), so no recursive placeholder has succeeded or
consumed tokens; the claim then demands a silent failure, but the matcher
raises the hard `InputError "Unexpected token"` at the `)` (second
conjunct) because `throwOnError` is set by merely *processing* the failed
optional placeholder. -/
theorem matchPattern_commit_counterexample :
    parseExpression 99 [Token.symbol ")" ⟨"f", 1, 1⟩] =
      .error (.inputError "Invalid expression" ⟨"f", 1, 1⟩) ∧
    matchPattern 100 [Token.symbol ")" ⟨"f", 1, 1⟩] [pExprOpt, pSym ";"] =
      .error (.inputError "Unexpected token" ⟨"f", 1, 1⟩) :=
  ⟨by rfl, by rfl⟩

/-! Hand-stated one-step unfolding equations for the matcher functions
(proved by `rfl`); the automatic equation generator struggles with the
mutual block, so proofs below rewrite with these. -/

theorem matchPatternGo_zero (tokens : List Token) (pat : List PatElem)
    (i : Nat) (flag : Bool) (acc : List MatchItem) :
    matchPatternGo 0 tokens pat i flag acc = .error .fuelExhausted := rfl

theorem matchPatternGo_succ (f : Nat) (tokens : List Token) (pat : List PatElem)
    (i : Nat) (flag : Bool) (acc : List MatchItem) :
    matchPatternGo (f + 1) tokens pat i flag acc = (
    match pat with
    | [] => .ok (some acc.reverse, i)
    | elem :: pat' =>
      if i ≥ tokens.length then .ok (none, 0)
      else
        match elem.type with
        | .expression => goExpression f tokens elem pat' i acc
        | .parameters => goParameters f tokens elem pat' i acc
        | .arguments => goArguments f tokens elem pat' i acc
        | .statements => goStatements f tokens elem pat' i acc
        | .primitiveStatement => goPrimitive f tokens elem pat' i acc
        | _ => goLiteral f tokens elem pat' i flag acc) := rfl

theorem goExpression_zero (tokens : List Token) (elem : PatElem)
    (pat' : List PatElem) (i : Nat) (acc : List MatchItem) :
    goExpression 0 tokens elem pat' i acc = .error .fuelExhausted := rfl

theorem goExpression_succ (f : Nat) (tokens : List Token) (elem : PatElem)
    (pat' : List PatElem) (i : Nat) (acc : List MatchItem) :
    goExpression (f + 1) tokens elem pat' i acc = (
    match parseExpression f (tokens.drop i) with
    | .ok (e, cnt) =>
      matchPatternGo f tokens pat' (i + cnt) true (.expr e :: acc)
    | .error (.inputError msg loc) =>
      if elem.optional then
        matchPatternGo f tokens pat' i true (.nul :: acc)
      else .error (.inputError msg loc)
    | .error e => .error e) := rfl

theorem goParameters_zero (tokens : List Token) (elem : PatElem)
    (pat' : List PatElem) (i : Nat) (acc : List MatchItem) :
    goParameters 0 tokens elem pat' i acc = .error .fuelExhausted := rfl

theorem goParameters_succ (f : Nat) (tokens : List Token) (elem : PatElem)
    (pat' : List PatElem) (i : Nat) (acc : List MatchItem) :
    goParameters (f + 1) tokens elem pat' i acc = (
    match matchPattern f (tokens.drop i) [pIdent, pIdent] with
    | .ok (none, _) =>
      matchPatternGo f tokens pat' i true (.params [] :: acc)
    | .ok (some [.tok (.identifier v1 _), .tok (.identifier v2 l2)], cnt) =>
      if i + cnt ≥ tokens.length then .ok (none, 0)
      else
        match matchParamsLoop f tokens (i + cnt) [⟨v1, v2, l2⟩] with
        | .ok none => .ok (none, 0)
        | .ok (some (ps, i')) =>
          matchPatternGo f tokens pat' i' true (.params ps.reverse :: acc)
        | .error e => .error e
    | .ok (some _, _) => shapeErr
    | .error e => .error e) := rfl

theorem goArguments_zero (tokens : List Token) (elem : PatElem)
    (pat' : List PatElem) (i : Nat) (acc : List MatchItem) :
    goArguments 0 tokens elem pat' i acc = .error .fuelExhausted := rfl

theorem goArguments_succ (f : Nat) (tokens : List Token) (elem : PatElem)
    (pat' : List PatElem) (i : Nat) (acc : List MatchItem) :
    goArguments (f + 1) tokens elem pat' i acc = (
    match parseExpression f (tokens.drop i) with
    | .error (.inputError _ _) =>
      matchPatternGo f tokens pat' i true (.args [] :: acc)
    | .error e => .error e
    | .ok (e, cnt) =>
      if i + cnt ≥ tokens.length then .ok (none, 0)
      else
        match matchArgsLoop f tokens (i + cnt) [e] with
        | .ok none => .ok (none, 0)
        | .ok (some (es, i')) =>
          matchPatternGo f tokens pat' i' true (.args es.reverse :: acc)
        | .error e => .error e) := rfl

theorem goStatements_zero (tokens : List Token) (elem : PatElem)
    (pat' : List PatElem) (i : Nat) (acc : List MatchItem) :
    goStatements 0 tokens elem pat' i acc = .error .fuelExhausted := rfl

theorem goStatements_succ (f : Nat) (tokens : List Token) (elem : PatElem)
    (pat' : List PatElem) (i : Nat) (acc : List MatchItem) :
    goStatements (f + 1) tokens elem pat' i acc = (
    match matchStmtsLoop f tokens i [] with
    | .ok none => .ok (none, 0)
    | .ok (some (ss, i')) =>
      matchPatternGo f tokens pat' i' true (.stmts ss.reverse :: acc)
    | .error e => .error e) := rfl

theorem goPrimitive_zero (tokens : List Token) (elem : PatElem)
    (pat' : List PatElem) (i : Nat) (acc : List MatchItem) :
    goPrimitive 0 tokens elem pat' i acc = .error .fuelExhausted := rfl

theorem goPrimitive_succ (f : Nat) (tokens : List Token) (elem : PatElem)
    (pat' : List PatElem) (i : Nat) (acc : List MatchItem) :
    goPrimitive (f + 1) tokens elem pat' i acc = (
    match pat' with
    | [] => .error (.internalError "No terminator following primitive statement pattern")
    | nextElem :: _ =>
      if !nextElem.isToken then
        .error (.internalError "Invalid terminator following primitive statement pattern")
      else
        match parsePrimitiveStatement f (tokens.drop i) nextElem with
        | .ok (none, _) =>
          (match tokenLocAt tokens i with
           | .ok loc => .error (.inputError "Invalid statement" loc)
           | .error e => .error e)
        | .ok (some s, cnt) =>
          matchPatternGo f tokens pat' (i + cnt - 1) true (.stmt s :: acc)
        | .error e => .error e) := rfl

theorem goLiteral_zero (tokens : List Token) (elem : PatElem)
    (pat' : List PatElem) (i : Nat) (flag : Bool) (acc : List MatchItem) :
    goLiteral 0 tokens elem pat' i flag acc = .error .fuelExhausted := rfl

theorem goLiteral_succ (f : Nat) (tokens : List Token) (elem : PatElem)
    (pat' : List PatElem) (i : Nat) (flag : Bool) (acc : List MatchItem) :
    goLiteral (f + 1) tokens elem pat' i flag acc = (
    match tokens.get? i with
    | none => .ok (none, 0)
    | some token =>
      if literalMismatch elem token then
        if elem.optional then
          matchPatternGo f tokens pat' i flag (.nul :: acc)
        else if flag then
          .error (.inputError "Unexpected token" token.location)
        else .ok (none, 0)
      else
        matchPatternGo f tokens pat' (i + 1) flag (.tok token :: acc)) := rfl

theorem matchPattern_zero (tokens : List Token) (pattern : List PatElem) :
    matchPattern 0 tokens pattern = .error .fuelExhausted := rfl

theorem matchPattern_succ (f : Nat) (tokens : List Token) (pattern : List PatElem) :
    matchPattern (f + 1) tokens pattern =
      matchPatternGo f tokens pattern 0 false [] := rfl

/-- Simultaneous none-count analysis of the matcher: whenever the pattern
matcher (or one of its per-element helpers) reports a failed match
(`[null, …]`), the reported consumed-token count is `0`. -/
theorem matchPatternGo_none_zero :
    ∀ fuel : Nat,
      (∀ tokens pat i flag acc n,
        matchPatternGo fuel tokens pat i flag acc = .ok (none, n) → n = 0) ∧
      (∀ tokens elem pat' i acc n,
        goExpression fuel tokens elem pat' i acc = .ok (none, n) → n = 0) ∧
      (∀ tokens elem pat' i acc n,
        goParameters fuel tokens elem pat' i acc = .ok (none, n) → n = 0) ∧
      (∀ tokens elem pat' i acc n,
        goArguments fuel tokens elem pat' i acc = .ok (none, n) → n = 0) ∧
      (∀ tokens elem pat' i acc n,
        goStatements fuel tokens elem pat' i acc = .ok (none, n) → n = 0) ∧
      (∀ tokens elem pat' i acc n,
        goPrimitive fuel tokens elem pat' i acc = .ok (none, n) → n = 0) ∧
      (∀ tokens elem pat' i flag acc n,
        goLiteral fuel tokens elem pat' i flag acc = .ok (none, n) → n = 0) := by
  intro fuel
  induction fuel with
  | zero =>
    refine ⟨?_, ?_, ?_, ?_, ?_, ?_, ?_⟩
    · intro _ _ _ _ _ _ h; rw [matchPatternGo_zero] at h; exact Except.noConfusion h
    · intro _ _ _ _ _ _ h; rw [goExpression_zero] at h; exact Except.noConfusion h
    · intro _ _ _ _ _ _ h; rw [goParameters_zero] at h; exact Except.noConfusion h
    · intro _ _ _ _ _ _ h; rw [goArguments_zero] at h; exact Except.noConfusion h
    · intro _ _ _ _ _ _ h; rw [goStatements_zero] at h; exact Except.noConfusion h
    · intro _ _ _ _ _ _ h; rw [goPrimitive_zero] at h; exact Except.noConfusion h
    · intro _ _ _ _ _ _ _ h; rw [goLiteral_zero] at h; exact Except.noConfusion h
  | succ f ih =>
    obtain ⟨ihGo, ihE, ihP, ihA, ihS, ihPr, ihL⟩ := ih
    refine ⟨?_, ?_, ?_, ?_, ?_, ?_, ?_⟩
    · intro tokens pat i flag acc n h
      rw [matchPatternGo_succ] at h
      split at h
      · simp only [Except.ok.injEq, Prod.mk.injEq] at h
        exact absurd h.1 (by simp)
      · split at h
        · simp only [Except.ok.injEq, Prod.mk.injEq] at h
          exact h.2.symm
        · split at h
          · exact ihE _ _ _ _ _ _ h
          · exact ihP _ _ _ _ _ _ h
          · exact ihA _ _ _ _ _ _ h
          · exact ihS _ _ _ _ _ _ h
          · exact ihPr _ _ _ _ _ _ h
          · exact ihL _ _ _ _ _ _ _ h
    · intro tokens elem pat' i acc n h
      rw [goExpression_succ] at h
      split at h
      · exact ihGo _ _ _ _ _ _ h
      · split at h
        · exact ihGo _ _ _ _ _ _ h
        · exact Except.noConfusion h
      · exact Except.noConfusion h
    · intro tokens elem pat' i acc n h
      rw [goParameters_succ] at h
      split at h
      · exact ihGo _ _ _ _ _ _ h
      · split at h
        · simp only [Except.ok.injEq, Prod.mk.injEq] at h
          exact h.2.symm
        · split at h
          · simp only [Except.ok.injEq, Prod.mk.injEq] at h
            exact h.2.symm
          · exact ihGo _ _ _ _ _ _ h
          · exact Except.noConfusion h
      · exact Except.noConfusion h
      · exact Except.noConfusion h
    · intro tokens elem pat' i acc n h
      rw [goArguments_succ] at h
      split at h
      · exact ihGo _ _ _ _ _ _ h
      · exact Except.noConfusion h
      · split at h
        · simp only [Except.ok.injEq, Prod.mk.injEq] at h
          exact h.2.symm
        · split at h
          · simp only [Except.ok.injEq, Prod.mk.injEq] at h
            exact h.2.symm
          · exact ihGo _ _ _ _ _ _ h
          · exact Except.noConfusion h
    · intro tokens elem pat' i acc n h
      rw [goStatements_succ] at h
      split at h
      · simp only [Except.ok.injEq, Prod.mk.injEq] at h
        exact h.2.symm
      · exact ihGo _ _ _ _ _ _ h
      · exact Except.noConfusion h
    · intro tokens elem pat' i acc n h
      rw [goPrimitive_succ] at h
      split at h
      · exact Except.noConfusion h
      · split at h
        · exact Except.noConfusion h
        · split at h
          · split at h
            · exact Except.noConfusion h
            · exact Except.noConfusion h
          · exact ihGo _ _ _ _ _ _ h
          · exact Except.noConfusion h
    · intro tokens elem pat' i flag acc n h
      rw [goLiteral_succ] at h
      split at h
      · simp only [Except.ok.injEq, Prod.mk.injEq] at h
        exact h.2.symm
      · split at h
        · split at h
          · exact ihGo _ _ _ _ _ _ h
          · split at h
            · exact Except.noConfusion h
            · simp only [Except.ok.injEq, Prod.mk.injEq] at h
              exact h.2.symm
        · exact ihGo _ _ _ _ _ _ h

/-- C10: whenever `matchPattern` fails to match (returns a `null` match),
it reports a consumed-token count of `0`, so a failed production attempt
never advances the parser's position. -/
theorem matchPattern_none_zero (fuel : Nat) (tokens : List Token)
    (pattern : List PatElem) (n : Nat)
    (h : matchPattern fuel tokens pattern = .ok (none, n)) : n = 0 := by
  match fuel with
  | 0 => rw [matchPattern_zero] at h; simp at h
  | f + 1 =>
    rw [matchPattern_succ] at h
    exact (matchPatternGo_none_zero f).1 _ _ _ _ _ _ h

/-- Witness for C10: the failed declaration-pattern match on `foo ( ) ;`
reports count `0`. -/
theorem matchPattern_none_zero_witness :
    matchPattern 100
      [Token.identifier "foo" ⟨"f", 1, 1⟩, Token.symbol "(" ⟨"f", 1, 4⟩,
       Token.symbol ")" ⟨"f", 1, 5⟩, Token.symbol ";" ⟨"f", 1, 6⟩]
      [pKwOpt "const", pIdent, pIdent, semicolonTerm] = .ok (none, 0) ∧
    (0 : Nat) = 0 := by
  constructor
  · rfl
  · exact matchPattern_none_zero 100
      [Token.identifier "foo" ⟨"f", 1, 1⟩, Token.symbol "(" ⟨"f", 1, 4⟩,
       Token.symbol ")" ⟨"f", 1, 5⟩, Token.symbol ";" ⟨"f", 1, 6⟩]
      [pKwOpt "const", pIdent, pIdent, semicolonTerm] 0 (by rfl)

/-- In a committed matcher (`throwOnError = true`), a mismatching
non-optional literal element at an existing token throws `Unexpected
token` at that token's location. -/
theorem goLiteral_committed_throw (f : Nat) (tokens : List Token) (elem : PatElem)
    (pat' : List PatElem) (i : Nat) (acc : List MatchItem) (t : Token)
    (hget : tokens.get? i = some t) (hmis : literalMismatch elem t = true)
    (hopt : elem.optional = false) :
    goLiteral (f + 1) tokens elem pat' i true acc =
      .error (.inputError "Unexpected token" t.location) := by
  rw [goLiteral_succ, hget]
  dsimp only
  rw [if_pos hmis, hopt]
  rfl

/-- A literal-only pattern never makes the matcher throw: with no
recursive placeholder processed, `throwOnError` stays `false` and every
failure is the silent `[null, 0]`. -/
theorem matchPatternGo_literal_silent :
    ∀ (fuel : Nat) (tokens : List Token) (pat : List PatElem) (i : Nat)
      (acc : List MatchItem),
      (∀ e ∈ pat, e.type.isLiteralTok = true) → 2 * pat.length < fuel →
      ∀ err, matchPatternGo fuel tokens pat i false acc ≠ .error err := by
  intro fuel
  induction fuel using Nat.strong_induction_on with
  | _ fuel ih =>
    intro tokens pat i acc hlit hlen err
    match fuel, hlen with
    | f + 1, hlen =>
    rw [matchPatternGo_succ]
    cases pat with
    | nil =>
      intro h
      exact Except.noConfusion h
    | cons elem pat' =>
      dsimp only
      by_cases hge : i ≥ tokens.length
      · rw [if_pos hge]
        intro h
        exact Except.noConfusion h
      · rw [if_neg hge]
        obtain ⟨ty, v, opt⟩ := elem
        have hhd := hlit _ (List.mem_cons_self _ _)
        have htl : ∀ e ∈ pat', e.type.isLiteralTok = true :=
          fun e he => hlit e (List.mem_cons_of_mem _ he)
        simp only [List.length_cons] at hlen
        have hf : ∃ g, f = g + 1 := ⟨f - 1, by omega⟩
        obtain ⟨g, rfl⟩ := hf
        have hrec : ∀ (j : Nat) (acc' : List MatchItem) (err' : PErr),
            matchPatternGo g tokens pat' j false acc' ≠ .error err' := by
          intro j acc' err'
          exact ih g (by omega) tokens pat' j acc' htl (by omega) err'
        cases ty
        all_goals first
          | exact Bool.noConfusion hhd
          | (dsimp only
             rw [goLiteral_succ]
             cases hget : tokens.get? i with
             | none =>
               intro h
               exact Except.noConfusion h
             | some token =>
               dsimp only
               split
               · split
                 · exact hrec _ _ err
                 · intro h
                   exact Except.noConfusion h
               · exact hrec _ _ err)

/-- C2 (amended): commitment happens on *processing* a recursive
placeholder, not on its success or consumption.  (1) While the pattern has
produced no recursive placeholder element, `throwOnError` is still `false`
and the matcher never throws — a non-optional literal mismatch fails
silently; stated for patterns made of literal elements only.  (2) Once
committed (`throwOnError = true`), a non-optional literal mismatch at an
existing token raises the hard `InputError "Unexpected token"` at that
token's location — this covers, in particular, every mismatch after a
placeholder that consumed tokens.  (3) Even an optional `expression`
placeholder whose parse *failed* (consuming nothing) leaves the matcher
committed: processing continues with `throwOnError = true`. -/
theorem matchPattern_commit_rule :
    (∀ (fuel : Nat) (tokens : List Token) (pattern : List PatElem),
        (∀ e ∈ pattern, e.type.isLiteralTok = true) →
        2 * pattern.length + 1 < fuel →
        ∀ err, matchPattern fuel tokens pattern ≠ .error err) ∧
    (∀ (f : Nat) (tokens : List Token) (elem : PatElem) (pat' : List PatElem)
        (i : Nat) (acc : List MatchItem) (t : Token),
        tokens.get? i = some t → literalMismatch elem t = true →
        elem.optional = false →
        goLiteral (f + 1) tokens elem pat' i true acc =
          .error (.inputError "Unexpected token" t.location)) ∧
    (∀ (f : Nat) (tokens : List Token) (elem : PatElem) (pat' : List PatElem)
        (i : Nat) (acc : List MatchItem) (msg : String) (loc : Location),
        parseExpression f (tokens.drop i) = .error (.inputError msg loc) →
        elem.optional = true →
        goExpression (f + 1) tokens elem pat' i acc =
          matchPatternGo f tokens pat' i true (.nul :: acc)) := by
  refine ⟨?_, ?_, ?_⟩
  · intro fuel tokens pattern hlit hlen err
    match fuel, hlen with
    | f + 1, hlen =>
      rw [matchPattern_succ]
      exact matchPatternGo_literal_silent f tokens pattern 0 [] hlit (by omega) err
  · intro f tokens elem pat' i acc t hget hmis hopt
    exact goLiteral_committed_throw f tokens elem pat' i acc t hget hmis hopt
  · intro f tokens elem pat' i acc msg loc hpe hopt
    rw [goExpression_succ, hpe]
    dsimp only
    rw [if_pos hopt]

/-- Witness for C2 (amended), at the inputs of the counterexample: the
one-element literal pattern `[';']` fails silently on `)` (no throw),
a committed literal mismatch at `)` throws `Unexpected token`, and the
failed optional expression placeholder on `)` commits the matcher. -/
theorem matchPattern_commit_rule_witness :
    (matchPattern 10 [Token.symbol ")" ⟨"f", 1, 1⟩] [pSym ";"] ≠
      .error (.inputError "Unexpected token" ⟨"f", 1, 1⟩)) ∧
    goLiteral 1 [Token.symbol ")" ⟨"f", 1, 1⟩] (pSym ";") [] 0 true [] =
      .error (.inputError "Unexpected token" ⟨"f", 1, 1⟩) ∧
    goExpression 99 [Token.symbol ")" ⟨"f", 1, 1⟩] pExprOpt [pSym ";"] 0 [] =
      matchPatternGo 98 [Token.symbol ")" ⟨"f", 1, 1⟩] [pSym ";"] 0 true [.nul] := by
  refine ⟨?_, ?_, ?_⟩
  · exact matchPattern_commit_rule.1 10 _ _ (by decide) (by decide) _
  · exact matchPattern_commit_rule.2.1 0 _ (pSym ";") [] 0 []
      (Token.symbol ")" ⟨"f", 1, 1⟩) (by rfl) (by rfl) (by rfl)
  · exact matchPattern_commit_rule.2.2 98 _ pExprOpt [pSym ";"] 0 []
      "Invalid expression" ⟨"f", 1, 1⟩ (by rfl) (by rfl)

/-! ## Code generator (`src/stages/generator.ts`)

The `DynamicBuffer` is append-only (`write` copies at the end and bumps
`size`; `length` returns `size`), so it is modelled as a `String` together
with its UTF-8 byte length (`Buffer.from` encodes UTF-8).  The `target`
parameter has the single inhabitant `'debug'` and is never read, so it is
dropped.  The `log('WARN', …)` shadow warning is a side effect without
influence on the produced bytes and is not modelled. -/

/-- The `primitiveTypes` table: identifier and byte size. -/
def primitiveTypes : List (String × Nat) :=
  [("i8", 1), ("u8", 1), ("i16", 2), ("u16", 2), ("i32", 4), ("u32", 4)]

/-- The generator's `Variable` record (`const` ↦ `isConst`). -/
structure Variable where
  typeIdentifier : String
  variableIdentifier : String
  isConst : Bool
  offset : Nat
deriving DecidableEq

/-- The generator's mutable state: `stackOffset` and the output buffer. -/
structure GenState where
  stackOffset : Nat
  output : String
deriving DecidableEq

/-- Generator errors: thrown `InputError`s, the plain
`Error('Not implemented')`, and fuel exhaustion of the embedding. -/
inductive GErr where
  | inputError (message : String) (location : Location)
  | notImplemented
  | fuelExhausted
deriving DecidableEq

/-- UTF-8 size in bytes of one code point. -/
def charUtf8Size (c : Char) : Nat :=
  if c.toNat < 0x80 then 1
  else if c.toNat < 0x800 then 2
  else if c.toNat < 0x10000 then 3
  else 4

/-- UTF-8 byte length of a string (`Buffer.byteLength`). -/
def byteLen (s : String) : Nat := (s.data.map charUtf8Size).sum

theorem byteLen_append (a b : String) :
    byteLen (a ++ b) = byteLen a + byteLen b := by
  simp [byteLen, String.data_append]

/-- `state.outputBuffer.write(Buffer.from(s))`. -/
def writeB (st : GenState) (s : String) : GenState :=
  { st with output := st.output ++ s }

/-- `${n}` for the stack offsets and jump targets (plain decimal). -/
def natText (n : Nat) : String := toString n

/-- `${v}` for parsed integer literal values. -/
def intText (v : Int) : String := toString v

/-- Decimal rendering of a float literal value for `< LITERAL FLOAT …`.
Approximate model of JavaScript number-to-string (exact for integers); no
claim below involves emitting a float literal. -/
def ratText (v : Rat) : String :=
  if v.den = 1 then toString v.num
  else toString v.num ++ "/" ++ toString v.den

/-- `${expression.type}` for the binary-operator tag. -/
def BinOp.tag : BinOp → String
  | .addition => "addition"
  | .subtraction => "subtraction"
  | .multiplication => "multiplication"
  | .division => "division"
  | .modulo => "modulo"
  | .bitwiseOr => "bitwise-or"
  | .bitwiseAnd => "bitwise-and"
  | .equality => "equality"
  | .inequality => "inequality"
  | .lessThan => "less-than"
  | .lessThanOrEqual => "less-than-or-equal"
  | .greaterThan => "greater-than"
  | .greaterThanOrEqual => "greater-than-or-equal"

/-- `array.join(', ')` for the `-> FILL IF BLOCK JMP:` line. -/
def natJoin : List Nat → String
  | [] => ""
  | [a] => natText a
  | a :: rest => natText a ++ ", " ++ natJoin rest

/-- `primitiveTypes.find(...)?.size ?? 0`. -/
def typeSize (ty : String) : Nat :=
  ((primitiveTypes.find? (fun p => p.1 = ty)).map (·.2)).getD 0

/-- Variable lookup by identifier. -/
def findVar (vars : List Variable) (id : String) : Option Variable :=
  vars.find? (fun w => w.variableIdentifier = id)

mutual

/-- `generateStatements(statements, inheritedVariables, state)`: fresh
`variables` list, then the `forEach`. -/
def generateStatements (fuel : Nat) (statements : List Statement)
    (inherited : List Variable) (st : GenState) :
    Except GErr (List Variable × GenState) :=
  match fuel with
  | 0 => .error .fuelExhausted
  | fuel + 1 => genStmtsGo fuel statements inherited [] st
termination_by structural fuel

/-- The `statements.forEach` loop, with the growing `variables` list. -/
def genStmtsGo (fuel : Nat) (statements : List Statement)
    (inherited : List Variable) (vars : List Variable) (st : GenState) :
    Except GErr (List Variable × GenState) :=
  match fuel with
  | 0 => .error .fuelExhausted
  | fuel + 1 =>
    match statements with
    | [] => .ok (vars, st)
    | s :: rest =>
      match genStatement fuel s inherited vars st with
      | .error e => .error e
      | .ok (vars', st') => genStmtsGo fuel rest inherited vars' st'
termination_by structural fuel

/-- One iteration of the `forEach` — the big `switch` on the statement
type. -/
def genStatement (fuel : Nat) (s : Statement) (inherited : List Variable)
    (vars : List Variable) (st : GenState) :
    Except GErr (List Variable × GenState) :=
  match fuel with
  | 0 => .error .fuelExhausted
  | fuel + 1 =>
    match s with
    | .declaration ty v isC loc =>
      if (primitiveTypes.find? (fun p => p.1 = ty)).isNone then
        .error (.inputError ("Invalid type identifier: " ++ ty) loc)
      else if vars.any (fun w => w.variableIdentifier = v) then
        .error (.inputError ("Variable " ++ v ++ " is already declared") loc)
      else if isC then
        .error (.inputError "Cannot declare a constant without an assignment" loc)
      else
        .ok (vars ++ [⟨ty, v, isC, st.stackOffset⟩],
          { st with stackOffset := st.stackOffset + typeSize ty })
    | .declarationWithAssignment ty v isC a loc =>
      if (primitiveTypes.find? (fun p => p.1 = ty)).isNone then
        .error (.inputError ("Invalid type identifier: " ++ ty) loc)
      else if vars.any (fun w => w.variableIdentifier = v) then
        .error (.inputError ("Variable " ++ v ++ " is already declared") loc)
      else
        let vars' := vars ++ [⟨ty, v, isC, st.stackOffset⟩]
        let st1 := writeB st "; EVAL EXPRESSION\n"
        match generateExpression fuel a (vars' ++ inherited) st1 with
        | .error e => .error e
        | .ok st2 =>
          let st3 := writeB st2 ("> STACK[" ++ natText st.stackOffset ++ "]\n")
          .ok (vars', { st3 with stackOffset := st3.stackOffset + typeSize ty })
    | .assignment v a loc =>
      match (findVar vars v).orElse (fun _ => findVar inherited v) with
      | none => .error (.inputError ("Variable " ++ v ++ " is not declared") loc)
      | some w =>
        if w.isConst then
          .error (.inputError "Cannot assign to a constant variable" loc)
        else
          let st1 := writeB st "; EVAL EXPRESSION\n"
          match generateExpression fuel a (vars ++ inherited) st1 with
          | .error e => .error e
          | .ok st2 =>
            .ok (vars, writeB st2 ("> STACK[" ++ natText w.offset ++ "]\n"))
    | .increment v loc =>
      match (findVar vars v).orElse (fun _ => findVar inherited v) with
      | none => .error (.inputError ("Variable " ++ v ++ " is not declared") loc)
      | some w =>
        if w.isConst then
          .error (.inputError "Cannot modify a constant variable" loc)
        else
          .ok (vars, writeB st ("STACK[" ++ natText w.offset ++ "]++\n"))
    | .decrement v loc =>
      match (findVar vars v).orElse (fun _ => findVar inherited v) with
      | none => .error (.inputError ("Variable " ++ v ++ " is not declared") loc)
      | some w =>
        if w.isConst then
          .error (.inputError "Cannot modify a constant variable" loc)
        else
          .ok (vars, writeB st ("STACK[" ++ natText w.offset ++ "]--\n"))
    | .functionCall _ _ _ => .error .notImplemented
    | .scope ss _ =>
      let st1 := writeB st "; BEGIN SCOPE\n"
      match generateStatements fuel ss (vars ++ inherited) st1 with
      | .error e => .error e
      | .ok (_, st2) => .ok (vars, writeB st2 "; END SCOPE\n")
    | .ifS blocks elseB _ =>
      match genIfConds fuel blocks (vars ++ inherited) st with
      | .error e => .error e
      | .ok stC =>
        let st2 := writeB stC "; BEGIN ELSE COND\nJMP ??\n; END ELSE COND\n"
        match genIfBlocks fuel blocks (vars ++ inherited) st2 with
        | .error e => .error e
        | .ok (st3, jumpLocations) =>
          let elseJumpLocation := byteLen st3.output
          match (match elseB with
            | none => Except.ok st3
            | some es =>
              let stE := writeB st3 "; BEGIN ELSE BLOCK\n"
              match generateStatements fuel es (vars ++ inherited) stE with
              | .error e => .error e
              | .ok (_, stE2) => .ok (writeB stE2 "; END ELSE BLOCK\n")) with
          | .error e => .error e
          | .ok st4 =>
            let st5 := writeB st4
              ("-> FILL IF BLOCK JMP: " ++ natJoin jumpLocations ++ "\n")
            .ok (vars, writeB st5
              ("-> FILL ELSE BLOCK JMP: " ++ natText elseJumpLocation ++ "\n"))
    | .whileS cond body doWhile _ =>
      let beforeByteOffset := byteLen st.output
      if !doWhile then
        let st1 := writeB st "; BEGIN WHILE COND\n; EVAL EXPRESSION\n"
        match generateExpression fuel cond (vars ++ inherited) st1 with
        | .error e => .error e
        | .ok st2 =>
          let st3 := writeB st2 "JMP IF FALSE ??\n; END WHILE COND\n"
          let st4 := writeB st3 "; BEGIN WHILE BLOCK\n"
          match generateStatements fuel body (vars ++ inherited) st4 with
          | .error e => .error e
          | .ok (_, st5) =>
            let st6 := writeB st5 "; END WHILE BLOCK\n"
            let st7 := writeB st6 ("JMP " ++ natText beforeByteOffset ++ "\n")
            .ok (vars, writeB st7
              ("-> FILL WHILE JMP: " ++ natText (byteLen st7.output) ++ "\n"))
      else
        let st1 := writeB st "; BEGIN WHILE BLOCK\n"
        match generateStatements fuel body (vars ++ inherited) st1 with
        | .error e => .error e
        | .ok (_, st2) =>
          let st3 := writeB st2 "; END WHILE BLOCK\n"
          let st4 := writeB st3 "; BEGIN WHILE COND\n; EVAL EXPRESSION\n"
          match generateExpression fuel cond (vars ++ inherited) st4 with
          | .error e => .error e
          | .ok st5 =>
            .ok (vars, writeB st5
              ("JMP IF TRUE " ++ natText beforeByteOffset ++ "\n; END WHILE COND\n"))
    | .forS ini cond act body _ =>
      match (match ini with
        | none => Except.ok st
        | some i0 =>
          let stI := writeB st "; BEGIN FOR INIT\n"
          match generateStatements fuel [i0] (vars ++ inherited) stI with
          | .error e => .error e
          | .ok (_, stI2) => .ok (writeB stI2 "; END FOR INIT\n")) with
      | .error e => .error e
      | .ok st1 =>
        let beforeByteOffset := byteLen st1.output
        match (match cond with
          | none => Except.ok st1
          | some c0 =>
            let stC := writeB st1 "; BEGIN FOR COND\n; EVAL EXPRESSION\n"
            match generateExpression fuel c0 (vars ++ inherited) stC with
            | .error e => .error e
            | .ok stC2 => .ok (writeB stC2 "JMP IF FALSE ??\n; END FOR COND\n")) with
        | .error e => .error e
        | .ok st2 =>
          let st3 := writeB st2 "; BEGIN FOR BLOCK\n"
          match generateStatements fuel body (vars ++ inherited) st3 with
          | .error e => .error e
          | .ok (_, st4) =>
            let st5 := writeB st4 "; END FOR BLOCK\n"
            match (match act with
              | none => Except.ok st5
              | some a0 =>
                let stA := writeB st5 "; BEGIN FOR ACTION\n"
                match generateStatements fuel [a0] (vars ++ inherited) stA with
                | .error e => .error e
                | .ok (_, stA2) => .ok (writeB stA2 "; END FOR ACTION\n")) with
            | .error e => .error e
            | .ok st6 =>
              let st7 := writeB st6 ("JMP " ++ natText beforeByteOffset ++ "\n")
              .ok (vars, writeB st7
                ("-> FILL FOR JMP: " ++ natText (byteLen st7.output) ++ "\n"))
    | .breakS _ => .error .notImplemented
    | .functionDeclaration _ _ _ _ _ => .error .notImplemented
    | .returnS _ _ => .error .notImplemented
termination_by structural fuel

/-- The first `blocks.forEach` of the `if` case: one condition-evaluation
section per block, each ending in the placeholder jump `JMP IF TRUE ??`. -/
def genIfConds (fuel : Nat) (blocks : List (Expression × List Statement))
    (vars : List Variable) (st : GenState) : Except GErr GenState :=
  match fuel with
  | 0 => .error .fuelExhausted
  | fuel + 1 =>
    match blocks with
    | [] => .ok st
    | b :: bs =>
      let st1 := writeB st "; BEGIN IF COND\n; EVAL EXPRESSION\n"
      match generateExpression fuel b.1 vars st1 with
      | .error e => .error e
      | .ok st2 =>
        let st3 := writeB st2 "JMP IF TRUE ??\n; END IF COND\n"
        genIfConds fuel bs vars st3
termination_by structural fuel

/-- The second `blocks.forEach` of the `if` case: records the buffer
length at the start of each block body (`jumpLocations.push`), then emits
the body section. -/
def genIfBlocks (fuel : Nat) (blocks : List (Expression × List Statement))
    (vars : List Variable) (st : GenState) :
    Except GErr (GenState × List Nat) :=
  match fuel with
  | 0 => .error .fuelExhausted
  | fuel + 1 =>
    match blocks with
    | [] => .ok (st, [])
    | b :: bs =>
      let loc := byteLen st.output
      let st1 := writeB st "; BEGIN IF BLOCK\n"
      match generateStatements fuel b.2 vars st1 with
      | .error e => .error e
      | .ok (_, st2) =>
        let st3 := writeB st2 "; END IF BLOCK\n"
        match genIfBlocks fuel bs vars st3 with
        | .error e => .error e
        | .ok (st4, locs) => .ok (st4, loc :: locs)
termination_by structural fuel

/-- `generateExpression(expression, inheritedVariables, state)`. -/
def generateExpression (fuel : Nat) (e : Expression) (vars : List Variable)
    (st : GenState) : Except GErr GenState :=
  match fuel with
  | 0 => .error .fuelExhausted
  | fuel + 1 =>
    match e with
    | .integerLiteral v _ =>
      .ok (writeB st ("< LITERAL INT " ++ intText v ++ "\n"))
    | .floatLiteral v _ =>
      .ok (writeB st ("< LITERAL FLOAT " ++ ratText v ++ "\n"))
    | .stringLiteral s _ =>
      .ok (writeB st ("< LITERAL STRING " ++ s ++ "\n"))
    | .varE id loc =>
      match findVar vars id with
      | none => .error (.inputError ("Variable " ++ id ++ " is not declared") loc)
      | some w => .ok (writeB st ("< STACK[" ++ natText w.offset ++ "]\n"))
    | .increment id loc =>
      match findVar vars id with
      | none => .error (.inputError ("Variable " ++ id ++ " is not declared") loc)
      | some w => .ok (writeB st ("< STACK[" ++ natText w.offset ++ "]++\n"))
    | .decrement id loc =>
      match findVar vars id with
      | none => .error (.inputError ("Variable " ++ id ++ " is not declared") loc)
      | some w => .ok (writeB st ("< STACK[" ++ natText w.offset ++ "]--\n"))
    | .subExpression inner _ =>
      generateExpression fuel inner vars (writeB st "; EVAL SUBEXPRESSION\n")
    | .functionCall _ _ _ => .error .notImplemented
    | .binary op l r _ =>
      let st1 := writeB st "; EVAL A\n"
      match generateExpression fuel l vars st1 with
      | .error e => .error e
      | .ok st2 =>
        let st3 := writeB st2 "; EVAL B\n"
        match generateExpression fuel r vars st3 with
        | .error e => .error e
        | .ok st4 =>
          .ok (writeB st4 ("< A \x7b" ++ op.tag ++ "\x7d B\n"))
termination_by structural fuel

end

/-- `generate(statements, target)`: run on an empty state and return the
produced buffer contents. -/
def generate (fuel : Nat) (statements : List Statement) : Except GErr String :=
  match generateStatements fuel statements [] ⟨0, ""⟩ with
  | .ok (_, st) => .ok st.output
  | .error e => .error e

/-- Unfolding of the `declaration` case of `genStatement`. -/
theorem genStatement_declaration (fuel : Nat) (ty v : String) (isC : Bool)
    (loc : Location) (inherited vars : List Variable) (st : GenState) :
    genStatement (fuel + 1) (.declaration ty v isC loc) inherited vars st = (
    if (primitiveTypes.find? (fun p => p.1 = ty)).isNone then
      .error (.inputError ("Invalid type identifier: " ++ ty) loc)
    else if vars.any (fun w => w.variableIdentifier = v) then
      .error (.inputError ("Variable " ++ v ++ " is already declared") loc)
    else if isC then
      .error (.inputError "Cannot declare a constant without an assignment" loc)
    else
      .ok (vars ++ [⟨ty, v, isC, st.stackOffset⟩],
        { st with stackOffset := st.stackOffset + typeSize ty })) := rfl

/-- C6: scope visibility in the generator.  A variable declared inside a
nested scope is gone once the scope closes — `{ i32 x = 1; } x = 2;`
(as an AST) fails at the assignment with `Variable x is not declared` —
while an outer declaration stays visible at the same stack offset inside a
nested scope: `i32 x = 1; { x = 2; }` compiles, and both the declaration
and the inner assignment store to `STACK[0]`. -/
theorem generate_scope_visibility :
    generate 50
      [.scope [.declarationWithAssignment "i32" "x" false
        (.integerLiteral 1 ⟨"f", 1, 11⟩) ⟨"f", 1, 7⟩] ⟨"f", 1, 1⟩,
       .assignment "x" (.integerLiteral 2 ⟨"f", 1, 21⟩) ⟨"f", 1, 17⟩] =
      .error (.inputError "Variable x is not declared" ⟨"f", 1, 17⟩) ∧
    generate 50
      [.declarationWithAssignment "i32" "x" false
        (.integerLiteral 1 ⟨"f", 1, 9⟩) ⟨"f", 1, 5⟩,
       .scope [.assignment "x" (.integerLiteral 2 ⟨"f", 1, 18⟩) ⟨"f", 1, 14⟩]
         ⟨"f", 1, 12⟩] =
      .ok ("; EVAL EXPRESSION\n< LITERAL INT 1\n> STACK[0]\n; BEGIN SCOPE\n" ++
        "; EVAL EXPRESSION\n< LITERAL INT 2\n> STACK[0]\n; END SCOPE\n") :=
  ⟨by rfl, by rfl⟩

/-- C7: the primitive-type size table is `i8→1, u8→1, i16→2, u16→2,
i32→4, u32→4`; a declaration of a known, non-duplicate type receives the
current `stackOffset` as its offset and advances `stackOffset` by the
declared type's size; every table size is at least 1 (so successive
offsets strictly increase); and `i8 a; i16 b; i32 c;` yields offsets
0, 1, 3 (final `stackOffset` 7). -/
theorem generator_offset_packing :
    primitiveTypes =
      [("i8", 1), ("u8", 1), ("i16", 2), ("u16", 2), ("i32", 4), ("u32", 4)] ∧
    (∀ (fuel : Nat) (ty v : String) (loc : Location)
       (inherited vars : List Variable) (st : GenState),
      (primitiveTypes.find? (fun p => p.1 = ty)).isSome = true →
      vars.any (fun w => w.variableIdentifier = v) = false →
      genStatement (fuel + 1) (.declaration ty v false loc) inherited vars st =
        .ok (vars ++ [⟨ty, v, false, st.stackOffset⟩],
          { st with stackOffset := st.stackOffset + typeSize ty })) ∧
    (∀ ty : String,
      (primitiveTypes.find? (fun p => p.1 = ty)).isSome = true →
      1 ≤ typeSize ty) ∧
    generateStatements 50
      [.declaration "i8" "a" false ⟨"f", 1, 4⟩,
       .declaration "i16" "b" false ⟨"f", 1, 11⟩,
       .declaration "i32" "c" false ⟨"f", 1, 18⟩] [] ⟨0, ""⟩ =
      .ok ([⟨"i8", "a", false, 0⟩, ⟨"i16", "b", false, 1⟩,
            ⟨"i32", "c", false, 3⟩], ⟨7, ""⟩) := by
  refine ⟨rfl, ?_, ?_, by rfl⟩
  · intro fuel ty v loc inherited vars st h1 h2
    rw [genStatement_declaration]
    rw [if_neg (by rw [Option.isNone_iff_eq_none]; intro hn; rw [hn] at h1; simp at h1)]
    rw [h2]
    rfl
  · intro ty h
    unfold typeSize
    cases hf : primitiveTypes.find? (fun p => p.1 = ty) with
    | none => rw [hf] at h; simp at h
    | some p =>
      have hp := List.mem_of_find?_eq_some hf
      fin_cases hp <;> decide

/-- Witness for C7: the general declaration step applied to `i8 a;` on an
empty state — offset 0, `stackOffset` advanced to 1 — and the table size
of `i8` is at least 1. -/
theorem generator_offset_packing_witness :
    genStatement 1 (.declaration "i8" "a" false ⟨"f", 1, 4⟩) [] [] ⟨0, ""⟩ =
      .ok ([⟨"i8", "a", false, 0⟩], ⟨1, ""⟩) ∧
    1 ≤ typeSize "i8" := by
  constructor
  · exact generator_offset_packing.2.1 0 "i8" "a" ⟨"f", 1, 4⟩ [] [] ⟨0, ""⟩
      (by rfl) (by rfl)
  · exact generator_offset_packing.2.2.1 "i8" (by rfl)

/-- C8: the generator recognizes and rejects `function-call` statements,
`function-declaration`, `return` and `break` with the plain
`Error('Not implemented')` (the switch also lists a `'continue'` case,
but the parser's `Statement` union has no continue variant, so it is
unreachable); and the pipeline on `foo();` lexes, parses to a
function-call statement, and fails generation with `Not implemented`. -/
theorem generator_not_implemented :
    (∀ (fuel : Nat) (fn : String) (args : List Expression) (loc : Location)
       (inherited vars : List Variable) (st : GenState),
      genStatement (fuel + 1) (.functionCall fn args loc) inherited vars st =
        .error .notImplemented) ∧
    (∀ (fuel : Nat) (fn : String) (ps : List Param) (rt : String)
       (ss : List Statement) (loc : Location)
       (inherited vars : List Variable) (st : GenState),
      genStatement (fuel + 1) (.functionDeclaration fn ps rt ss loc)
        inherited vars st = .error .notImplemented) ∧
    (∀ (fuel : Nat) (e : Option Expression) (loc : Location)
       (inherited vars : List Variable) (st : GenState),
      genStatement (fuel + 1) (.returnS e loc) inherited vars st =
        .error .notImplemented) ∧
    (∀ (fuel : Nat) (loc : Location) (inherited vars : List Variable)
       (st : GenState),
      genStatement (fuel + 1) (.breakS loc) inherited vars st =
        .error .notImplemented) ∧
    tokenize "f" "foo();" =
      .ok [Token.identifier "foo" ⟨"f", 1, 1⟩, Token.symbol "(" ⟨"f", 1, 4⟩,
           Token.symbol ")" ⟨"f", 1, 5⟩, Token.symbol ";" ⟨"f", 1, 6⟩] ∧
    parse 100
      [Token.identifier "foo" ⟨"f", 1, 1⟩, Token.symbol "(" ⟨"f", 1, 4⟩,
       Token.symbol ")" ⟨"f", 1, 5⟩, Token.symbol ";" ⟨"f", 1, 6⟩] =
      .ok [.functionCall "foo" [] ⟨"f", 1, 1⟩] ∧
    generate 50 [.functionCall "foo" [] ⟨"f", 1, 1⟩] = .error .notImplemented :=
  ⟨fun _ _ _ _ _ _ _ => rfl, fun _ _ _ _ _ _ _ _ _ => rfl,
   fun _ _ _ _ _ _ => rfl, fun _ _ _ _ _ => rfl, by rfl, by rfl, by rfl⟩

/-- Substring test (`sub` occurs in the second argument). -/
def containsSub (sub : List Char) : List Char → Bool
  | [] => isPrefixL sub []
  | c :: t => isPrefixL sub (c :: t) || containsSub sub t

/-- `sub` occurs somewhere in `s`. -/
def containsStr (s sub : String) : Bool := containsSub sub.data s.data

/-- The `<offset-padded-to-6-dots>` rendering described by the
specification: decimal text left-padded with `.` to 6 characters. -/
def sixDotPad (n : Nat) : String :=
  String.mk (List.replicate (6 - (natText n).length) '.') ++ natText n

set_option maxRecDepth 4000 in
/-- C1 counterexample: the generator never resolves jump targets.  For the
one-block `if (1) { }` the emitted jump is the literal placeholder
`JMP IF TRUE ??` — the buffer contains no `.`-padded resolved offset (the
block body starts at byte 120, the number recorded in the trailing
`-> FILL IF BLOCK JMP:` comment line, and `JMP IF TRUE ....120` occurs
nowhere) — and where a numeric offset *does* appear inside a jump
instruction (the do-while back jump, here with target 0), it is plain
decimal, not padded with `.` to 6 characters. -/
theorem generator_if_jump_counterexample :
    generate 50 [.ifS [(.integerLiteral 1 ⟨"f", 1, 5⟩, [])] none ⟨"f", 1, 1⟩] =
      .ok ("; BEGIN IF COND\n; EVAL EXPRESSION\n< LITERAL INT 1\n" ++
        "JMP IF TRUE ??\n; END IF COND\n; BEGIN ELSE COND\nJMP ??\n" ++
        "; END ELSE COND\n; BEGIN IF BLOCK\n; END IF BLOCK\n" ++
        "-> FILL IF BLOCK JMP: 120\n-> FILL ELSE BLOCK JMP: 152\n") ∧
    containsStr ("; BEGIN IF COND\n; EVAL EXPRESSION\n< LITERAL INT 1\n" ++
        "JMP IF TRUE ??\n; END IF COND\n; BEGIN ELSE COND\nJMP ??\n" ++
        "; END ELSE COND\n; BEGIN IF BLOCK\n; END IF BLOCK\n" ++
        "-> FILL IF BLOCK JMP: 120\n-> FILL ELSE BLOCK JMP: 152\n")
      "JMP IF TRUE ??\n" = true ∧
    containsStr ("; BEGIN IF COND\n; EVAL EXPRESSION\n< LITERAL INT 1\n" ++
        "JMP IF TRUE ??\n; END IF COND\n; BEGIN ELSE COND\nJMP ??\n" ++
        "; END ELSE COND\n; BEGIN IF BLOCK\n; END IF BLOCK\n" ++
        "-> FILL IF BLOCK JMP: 120\n-> FILL ELSE BLOCK JMP: 152\n")
      ("JMP IF TRUE " ++ sixDotPad 120) = false ∧
    generate 50 [.whileS (.integerLiteral 1 ⟨"f", 1, 5⟩) [] true ⟨"f", 1, 1⟩] =
      .ok ("; BEGIN WHILE BLOCK\n; END WHILE BLOCK\n; BEGIN WHILE COND\n" ++
        "; EVAL EXPRESSION\n< LITERAL INT 1\nJMP IF TRUE 0\n; END WHILE COND\n") ∧
    containsStr ("; BEGIN WHILE BLOCK\n; END WHILE BLOCK\n; BEGIN WHILE COND\n" ++
        "; EVAL EXPRESSION\n< LITERAL INT 1\nJMP IF TRUE 0\n; END WHILE COND\n")
      ("JMP IF TRUE " ++ sixDotPad 0) = false :=
  ⟨by rfl, by rfl, by rfl, by rfl, by rfl⟩

/-! Hand-stated one-step unfolding equations for the generator functions
(proved by `rfl`), mirroring the bodies above. -/

theorem generateStatements_zero (ss : List Statement) (inh : List Variable)
    (st : GenState) :
    generateStatements 0 ss inh st = .error .fuelExhausted := rfl

theorem generateStatements_succ (f : Nat) (ss : List Statement)
    (inh : List Variable) (st : GenState) :
    generateStatements (f + 1) ss inh st = genStmtsGo f ss inh [] st := rfl

theorem genStmtsGo_zero (ss : List Statement) (inh vars : List Variable)
    (st : GenState) :
    genStmtsGo 0 ss inh vars st = .error .fuelExhausted := rfl

theorem genStmtsGo_succ (f : Nat) (ss : List Statement) (inh vars : List Variable)
    (st : GenState) :
    genStmtsGo (f + 1) ss inh vars st = (
    match ss with
    | [] => .ok (vars, st)
    | s :: rest =>
      match genStatement f s inh vars st with
      | .error e => .error e
      | .ok (vars', st') => genStmtsGo f rest inh vars' st') := rfl

theorem genIfConds_zero (bs : List (Expression × List Statement))
    (vars : List Variable) (st : GenState) :
    genIfConds 0 bs vars st = .error .fuelExhausted := rfl

theorem genIfConds_succ (f : Nat) (bs : List (Expression × List Statement))
    (vars : List Variable) (st : GenState) :
    genIfConds (f + 1) bs vars st = (
    match bs with
    | [] => .ok st
    | b :: rest =>
      match generateExpression f b.1 vars
          (writeB st "; BEGIN IF COND\n; EVAL EXPRESSION\n") with
      | .error e => .error e
      | .ok st2 =>
        genIfConds f rest vars (writeB st2 "JMP IF TRUE ??\n; END IF COND\n")) := rfl

theorem genIfBlocks_zero (bs : List (Expression × List Statement))
    (vars : List Variable) (st : GenState) :
    genIfBlocks 0 bs vars st = .error .fuelExhausted := rfl

theorem genIfBlocks_succ (f : Nat) (bs : List (Expression × List Statement))
    (vars : List Variable) (st : GenState) :
    genIfBlocks (f + 1) bs vars st = (
    match bs with
    | [] => .ok (st, [])
    | b :: rest =>
      match generateStatements f b.2 vars (writeB st "; BEGIN IF BLOCK\n") with
      | .error e => .error e
      | .ok (_, st2) =>
        match genIfBlocks f rest vars (writeB st2 "; END IF BLOCK\n") with
        | .error e => .error e
        | .ok (st4, locs) => .ok (st4, byteLen st.output :: locs)) := rfl

theorem generateExpression_zero (e : Expression) (vars : List Variable)
    (st : GenState) :
    generateExpression 0 e vars st = .error .fuelExhausted := rfl

theorem generateExpression_subExpr (f : Nat) (inner : Expression)
    (loc : Location) (vars : List Variable) (st : GenState) :
    generateExpression (f + 1) (.subExpression inner loc) vars st =
      generateExpression f inner vars (writeB st "; EVAL SUBEXPRESSION\n") := rfl

theorem generateExpression_binary (f : Nat) (op : BinOp) (l r : Expression)
    (loc : Location) (vars : List Variable) (st : GenState) :
    generateExpression (f + 1) (.binary op l r loc) vars st = (
    match generateExpression f l vars (writeB st "; EVAL A\n") with
    | .error e => .error e
    | .ok st2 =>
      match generateExpression f r vars (writeB st2 "; EVAL B\n") with
      | .error e => .error e
      | .ok st4 =>
        .ok (writeB st4 ("< A \x7b" ++ op.tag ++ "\x7d B\n"))) := rfl

theorem generateExpression_varE (f : Nat) (id : String) (loc : Location)
    (vars : List Variable) (st : GenState) :
    generateExpression (f + 1) (.varE id loc) vars st = (
    match findVar vars id with
    | none => .error (.inputError ("Variable " ++ id ++ " is not declared") loc)
    | some w => .ok (writeB st ("< STACK[" ++ natText w.offset ++ "]\n"))) := rfl

theorem generateExpression_incr (f : Nat) (id : String) (loc : Location)
    (vars : List Variable) (st : GenState) :
    generateExpression (f + 1) (.increment id loc) vars st = (
    match findVar vars id with
    | none => .error (.inputError ("Variable " ++ id ++ " is not declared") loc)
    | some w => .ok (writeB st ("< STACK[" ++ natText w.offset ++ "]++\n"))) := rfl

theorem generateExpression_decr (f : Nat) (id : String) (loc : Location)
    (vars : List Variable) (st : GenState) :
    generateExpression (f + 1) (.decrement id loc) vars st = (
    match findVar vars id with
    | none => .error (.inputError ("Variable " ++ id ++ " is not declared") loc)
    | some w => .ok (writeB st ("< STACK[" ++ natText w.offset ++ "]--\n"))) := rfl

theorem genStatement_zero (s : Statement) (inh vars : List Variable)
    (st : GenState) :
    genStatement 0 s inh vars st = .error .fuelExhausted := rfl

theorem genStatement_declAssign (f : Nat) (ty v : String) (isC : Bool)
    (a : Expression) (loc : Location) (inh vars : List Variable) (st : GenState) :
    genStatement (f + 1) (.declarationWithAssignment ty v isC a loc) inh vars st = (
    if (primitiveTypes.find? (fun p => p.1 = ty)).isNone then
      .error (.inputError ("Invalid type identifier: " ++ ty) loc)
    else if vars.any (fun w => w.variableIdentifier = v) then
      .error (.inputError ("Variable " ++ v ++ " is already declared") loc)
    else
      match generateExpression f a
          ((vars ++ [⟨ty, v, isC, st.stackOffset⟩]) ++ inh)
          (writeB st "; EVAL EXPRESSION\n") with
      | .error e => .error e
      | .ok st2 =>
        let st3 := writeB st2 ("> STACK[" ++ natText st.stackOffset ++ "]\n")
        .ok (vars ++ [⟨ty, v, isC, st.stackOffset⟩],
          { st3 with stackOffset := st3.stackOffset + typeSize ty })) := rfl

theorem genStatement_assignment (f : Nat) (v : String) (a : Expression)
    (loc : Location) (inh vars : List Variable) (st : GenState) :
    genStatement (f + 1) (.assignment v a loc) inh vars st = (
    match (findVar vars v).orElse (fun _ => findVar inh v) with
    | none => .error (.inputError ("Variable " ++ v ++ " is not declared") loc)
    | some w =>
      if w.isConst then
        .error (.inputError "Cannot assign to a constant variable" loc)
      else
        match generateExpression f a (vars ++ inh)
            (writeB st "; EVAL EXPRESSION\n") with
        | .error e => .error e
        | .ok st2 =>
          .ok (vars, writeB st2 ("> STACK[" ++ natText w.offset ++ "]\n"))) := rfl

theorem genStatement_increment (f : Nat) (v : String) (loc : Location)
    (inh vars : List Variable) (st : GenState) :
    genStatement (f + 1) (.increment v loc) inh vars st = (
    match (findVar vars v).orElse (fun _ => findVar inh v) with
    | none => .error (.inputError ("Variable " ++ v ++ " is not declared") loc)
    | some w =>
      if w.isConst then
        .error (.inputError "Cannot modify a constant variable" loc)
      else
        .ok (vars, writeB st ("STACK[" ++ natText w.offset ++ "]++\n"))) := rfl

theorem genStatement_decrement (f : Nat) (v : String) (loc : Location)
    (inh vars : List Variable) (st : GenState) :
    genStatement (f + 1) (.decrement v loc) inh vars st = (
    match (findVar vars v).orElse (fun _ => findVar inh v) with
    | none => .error (.inputError ("Variable " ++ v ++ " is not declared") loc)
    | some w =>
      if w.isConst then
        .error (.inputError "Cannot modify a constant variable" loc)
      else
        .ok (vars, writeB st ("STACK[" ++ natText w.offset ++ "]--\n"))) := rfl

theorem genStatement_scope (f : Nat) (ss : List Statement) (loc : Location)
    (inh vars : List Variable) (st : GenState) :
    genStatement (f + 1) (.scope ss loc) inh vars st = (
    match generateStatements f ss (vars ++ inh) (writeB st "; BEGIN SCOPE\n") with
    | .error e => .error e
    | .ok (_, st2) => .ok (vars, writeB st2 "; END SCOPE\n")) := rfl

theorem genStatement_ifS (f : Nat) (blocks : List (Expression × List Statement))
    (elseB : Option (List Statement)) (loc : Location)
    (inh vars : List Variable) (st : GenState) :
    genStatement (f + 1) (.ifS blocks elseB loc) inh vars st = (
    match genIfConds f blocks (vars ++ inh) st with
    | .error e => .error e
    | .ok stC =>
      match genIfBlocks f blocks (vars ++ inh)
          (writeB stC "; BEGIN ELSE COND\nJMP ??\n; END ELSE COND\n") with
      | .error e => .error e
      | .ok (st3, jumpLocations) =>
        match (match elseB with
          | none => Except.ok st3
          | some es =>
            match generateStatements f es (vars ++ inh)
                (writeB st3 "; BEGIN ELSE BLOCK\n") with
            | .error e => .error e
            | .ok (_, stE2) => .ok (writeB stE2 "; END ELSE BLOCK\n")) with
        | .error e => .error e
        | .ok st4 =>
          .ok (vars, writeB
            (writeB st4 ("-> FILL IF BLOCK JMP: " ++ natJoin jumpLocations ++ "\n"))
            ("-> FILL ELSE BLOCK JMP: " ++ natText (byteLen st3.output) ++ "\n"))) := rfl

theorem genStatement_whileS (f : Nat) (cond : Expression) (body : List Statement)
    (doWhile : Bool) (loc : Location) (inh vars : List Variable) (st : GenState) :
    genStatement (f + 1) (.whileS cond body doWhile loc) inh vars st = (
    if !doWhile then
      match generateExpression f cond (vars ++ inh)
          (writeB st "; BEGIN WHILE COND\n; EVAL EXPRESSION\n") with
      | .error e => .error e
      | .ok st2 =>
        match generateStatements f body (vars ++ inh)
            (writeB (writeB st2 "JMP IF FALSE ??\n; END WHILE COND\n")
              "; BEGIN WHILE BLOCK\n") with
        | .error e => .error e
        | .ok (_, st5) =>
          let st7 := writeB (writeB st5 "; END WHILE BLOCK\n")
            ("JMP " ++ natText (byteLen st.output) ++ "\n")
          .ok (vars, writeB st7
            ("-> FILL WHILE JMP: " ++ natText (byteLen st7.output) ++ "\n"))
    else
      match generateStatements f body (vars ++ inh)
          (writeB st "; BEGIN WHILE BLOCK\n") with
      | .error e => .error e
      | .ok (_, st2) =>
        match generateExpression f cond (vars ++ inh)
            (writeB (writeB st2 "; END WHILE BLOCK\n")
              "; BEGIN WHILE COND\n; EVAL EXPRESSION\n") with
        | .error e => .error e
        | .ok st5 =>
          .ok (vars, writeB st5
            ("JMP IF TRUE " ++ natText (byteLen st.output) ++ "\n; END WHILE COND\n"))) := rfl

theorem genStatement_forS (f : Nat) (ini : Option Statement)
    (cond : Option Expression) (act : Option Statement) (body : List Statement)
    (loc : Location) (inh vars : List Variable) (st : GenState) :
    genStatement (f + 1) (.forS ini cond act body loc) inh vars st = (
    match (match ini with
      | none => Except.ok st
      | some i0 =>
        match generateStatements f [i0] (vars ++ inh)
            (writeB st "; BEGIN FOR INIT\n") with
        | .error e => .error e
        | .ok (_, stI2) => .ok (writeB stI2 "; END FOR INIT\n")) with
    | .error e => .error e
    | .ok st1 =>
      match (match cond with
        | none => Except.ok st1
        | some c0 =>
          match generateExpression f c0 (vars ++ inh)
              (writeB st1 "; BEGIN FOR COND\n; EVAL EXPRESSION\n") with
          | .error e => .error e
          | .ok stC2 => .ok (writeB stC2 "JMP IF FALSE ??\n; END FOR COND\n")) with
      | .error e => .error e
      | .ok st2 =>
        match generateStatements f body (vars ++ inh)
            (writeB st2 "; BEGIN FOR BLOCK\n") with
        | .error e => .error e
        | .ok (_, st4) =>
          match (match act with
            | none => Except.ok (writeB st4 "; END FOR BLOCK\n")
            | some a0 =>
              match generateStatements f [a0] (vars ++ inh)
                  (writeB (writeB st4 "; END FOR BLOCK\n") "; BEGIN FOR ACTION\n") with
              | .error e => .error e
              | .ok (_, stA2) => .ok (writeB stA2 "; END FOR ACTION\n")) with
          | .error e => .error e
          | .ok st6 =>
            let st7 := writeB st6 ("JMP " ++ natText (byteLen st1.output) ++ "\n")
            .ok (vars, writeB st7
              ("-> FILL FOR JMP: " ++ natText (byteLen st7.output) ++ "\n"))) := rfl

theorem genStatement_notImpl (f : Nat) (inh vars : List Variable) (st : GenState) :
    (∀ (fn : String) (args : List Expression) (loc : Location),
      genStatement (f + 1) (.functionCall fn args loc) inh vars st =
        .error .notImplemented) ∧
    (∀ loc : Location,
      genStatement (f + 1) (.breakS loc) inh vars st = .error .notImplemented) ∧
    (∀ (fn : String) (ps : List Param) (rt : String) (ss : List Statement)
       (loc : Location),
      genStatement (f + 1) (.functionDeclaration fn ps rt ss loc) inh vars st =
        .error .notImplemented) ∧
    (∀ (e : Option Expression) (loc : Location),
      genStatement (f + 1) (.returnS e loc) inh vars st =
        .error .notImplemented) :=
  ⟨fun _ _ _ => rfl, fun _ => rfl, fun _ _ _ _ _ => rfl, fun _ _ => rfl⟩

/-- The output buffer only grows: `st'` extends `st`. -/
def OutExt (st st' : GenState) : Prop := ∃ t, st'.output = st.output ++ t

theorem OutExt.rfl {st : GenState} : OutExt st st :=
  ⟨"", by simp⟩

theorem OutExt.step {st st' : GenState} (h : OutExt st st') (s : String) :
    OutExt st (writeB st' s) := by
  obtain ⟨t, ht⟩ := h
  exact ⟨t ++ s, by simp [writeB, ht, String.append_assoc]⟩

theorem OutExt.comp {a b c : GenState} (h1 : OutExt a b) (h2 : OutExt b c) :
    OutExt a c := by
  obtain ⟨t1, ht1⟩ := h1
  obtain ⟨t2, ht2⟩ := h2
  exact ⟨t1 ++ t2, by rw [ht2, ht1, String.append_assoc]⟩

theorem OutExt.setOffset {a b : GenState} (h : OutExt a b) (n : Nat) :
    OutExt a { b with stackOffset := n } := h

/-- Monotonicity of the generator: every successful run only appends to
the output buffer. -/
theorem genMono :
    ∀ fuel : Nat,
      (∀ ss inh st r, generateStatements fuel ss inh st = .ok r → OutExt st r.2) ∧
      (∀ ss inh vars st r, genStmtsGo fuel ss inh vars st = .ok r → OutExt st r.2) ∧
      (∀ s inh vars st r, genStatement fuel s inh vars st = .ok r → OutExt st r.2) ∧
      (∀ bs vars st r, genIfConds fuel bs vars st = .ok r → OutExt st r) ∧
      (∀ bs vars st r, genIfBlocks fuel bs vars st = .ok r → OutExt st r.1) ∧
      (∀ e vars st r, generateExpression fuel e vars st = .ok r → OutExt st r) := by
  intro fuel
  induction fuel with
  | zero =>
    refine ⟨?_, ?_, ?_, ?_, ?_, ?_⟩
    · intro _ _ _ _ h; rw [generateStatements_zero] at h; exact Except.noConfusion h
    · intro _ _ _ _ _ h; rw [genStmtsGo_zero] at h; exact Except.noConfusion h
    · intro _ _ _ _ _ h; rw [genStatement_zero] at h; exact Except.noConfusion h
    · intro _ _ _ _ h; rw [genIfConds_zero] at h; exact Except.noConfusion h
    · intro _ _ _ _ h; rw [genIfBlocks_zero] at h; exact Except.noConfusion h
    · intro _ _ _ _ h; rw [generateExpression_zero] at h; exact Except.noConfusion h
  | succ f ih =>
    obtain ⟨ihGS, ihGo, ihSt, ihC, ihB, ihE⟩ := ih
    have hGS : ∀ ss inh st r,
        generateStatements (f + 1) ss inh st = .ok r → OutExt st r.2 := by
      intro ss inh st r h
      rw [generateStatements_succ] at h
      exact ihGo _ _ _ _ _ h
    have hGo : ∀ ss inh vars st r,
        genStmtsGo (f + 1) ss inh vars st = .ok r → OutExt st r.2 := by
      intro ss inh vars st r h
      rw [genStmtsGo_succ] at h
      split at h
      · obtain rfl : (vars, st) = r := Except.ok.injEq .. ▸ h
        exact OutExt.rfl
      · split at h
        · exact Except.noConfusion h
        · next vars' st' heq =>
          exact OutExt.comp (ihSt _ _ _ _ _ heq) (ihGo _ _ _ _ _ h)
    have hE : ∀ e vars st r,
        generateExpression (f + 1) e vars st = .ok r → OutExt st r := by
      intro e vars st r h
      cases e with
      | integerLiteral v loc =>
        have h2 : (Except.ok (writeB st ("< LITERAL INT " ++ intText v ++ "\n")) : Except GErr GenState) = .ok r := h
        obtain rfl : _ = r := Except.ok.injEq .. ▸ h2
        exact OutExt.rfl.step _
      | floatLiteral v loc =>
        have h2 : (Except.ok (writeB st ("< LITERAL FLOAT " ++ ratText v ++ "\n")) : Except GErr GenState) = .ok r := h
        obtain rfl : _ = r := Except.ok.injEq .. ▸ h2
        exact OutExt.rfl.step _
      | stringLiteral s loc =>
        have h2 : (Except.ok (writeB st ("< LITERAL STRING " ++ s ++ "\n")) : Except GErr GenState) = .ok r := h
        obtain rfl : _ = r := Except.ok.injEq .. ▸ h2
        exact OutExt.rfl.step _
      | varE id loc =>
        rw [generateExpression_varE] at h
        split at h
        · exact Except.noConfusion h
        · obtain rfl : _ = r := Except.ok.injEq .. ▸ h
          exact OutExt.rfl.step _
      | increment id loc =>
        rw [generateExpression_incr] at h
        split at h
        · exact Except.noConfusion h
        · obtain rfl : _ = r := Except.ok.injEq .. ▸ h
          exact OutExt.rfl.step _
      | decrement id loc =>
        rw [generateExpression_decr] at h
        split at h
        · exact Except.noConfusion h
        · obtain rfl : _ = r := Except.ok.injEq .. ▸ h
          exact OutExt.rfl.step _
      | subExpression inner loc =>
        rw [generateExpression_subExpr] at h
        exact OutExt.comp (OutExt.rfl.step _) (ihE _ _ _ _ h)
      | functionCall fn args loc => exact Except.noConfusion h
      | binary op l r' loc =>
        rw [generateExpression_binary] at h
        split at h
        · exact Except.noConfusion h
        · next st2 heq2 =>
          split at h
          · exact Except.noConfusion h
          · next st4 heq4 =>
            obtain rfl : _ = r := Except.ok.injEq .. ▸ h
            exact ((OutExt.comp (OutExt.comp (OutExt.rfl.step _) (ihE _ _ _ _ heq2))
              (OutExt.comp (OutExt.rfl.step _) (ihE _ _ _ _ heq4))).step _)
    refine ⟨hGS, hGo, ?_, ?_, ?_, hE⟩
    · intro s inh vars st r h
      cases s with
      | declaration ty v isC loc =>
        rw [genStatement_declaration] at h
        split at h
        · exact Except.noConfusion h
        · split at h
          · exact Except.noConfusion h
          · split at h
            · exact Except.noConfusion h
            · obtain rfl : _ = r := Except.ok.injEq .. ▸ h
              exact OutExt.rfl
      | declarationWithAssignment ty v isC a loc =>
        rw [genStatement_declAssign] at h
        split at h
        · exact Except.noConfusion h
        · split at h
          · exact Except.noConfusion h
          · split at h
            · exact Except.noConfusion h
            · next st2 heq =>
              obtain rfl : _ = r := Except.ok.injEq .. ▸ h
              exact ((OutExt.rfl.step _).comp (ihE _ _ _ _ heq)).step _
      | assignment v a loc =>
        rw [genStatement_assignment] at h
        split at h
        · exact Except.noConfusion h
        · split at h
          · exact Except.noConfusion h
          · split at h
            · exact Except.noConfusion h
            · next st2 heq =>
              obtain rfl : _ = r := Except.ok.injEq .. ▸ h
              exact ((OutExt.rfl.step _).comp (ihE _ _ _ _ heq)).step _
      | increment v loc =>
        rw [genStatement_increment] at h
        split at h
        · exact Except.noConfusion h
        · split at h
          · exact Except.noConfusion h
          · obtain rfl : _ = r := Except.ok.injEq .. ▸ h
            exact OutExt.rfl.step _
      | decrement v loc =>
        rw [genStatement_decrement] at h
        split at h
        · exact Except.noConfusion h
        · split at h
          · exact Except.noConfusion h
          · obtain rfl : _ = r := Except.ok.injEq .. ▸ h
            exact OutExt.rfl.step _
      | functionCall fn args loc => exact Except.noConfusion h
      | scope ss loc =>
        rw [genStatement_scope] at h
        split at h
        · exact Except.noConfusion h
        · next vs st2 heq =>
          obtain rfl : _ = r := Except.ok.injEq .. ▸ h
          exact ((OutExt.rfl.step _).comp (ihGS _ _ _ _ heq)).step _
      | ifS blocks elseB loc =>
        rw [genStatement_ifS] at h
        split at h
        · exact Except.noConfusion h
        · next stC heqC =>
          split at h
          · exact Except.noConfusion h
          · next st3 jls heqB =>
            split at h
            · exact Except.noConfusion h
            · next st4 heqE =>
              obtain rfl : _ = r := Except.ok.injEq .. ▸ h
              have hC : OutExt st stC := ihC _ _ _ _ heqC
              have hB : OutExt stC st3 := by
                have := ihB _ _ _ _ heqB
                exact OutExt.comp (OutExt.rfl.step _) this
              have hElse : OutExt st3 st4 := by
                split at heqE
                · obtain rfl : st3 = st4 := Except.ok.injEq .. ▸ heqE
                  exact OutExt.rfl
                · split at heqE
                  · exact Except.noConfusion heqE
                  · next vs stE2 heqE2 =>
                    obtain rfl : _ = st4 := Except.ok.injEq .. ▸ heqE
                    exact ((OutExt.rfl.step _).comp (ihGS _ _ _ _ heqE2)).step _
              exact ((hC.comp (hB.comp hElse)).step _).step _
      | whileS cond body doWhile loc =>
        rw [genStatement_whileS] at h
        split at h
        · split at h
          · exact Except.noConfusion h
          · next st2 heq2 =>
            split at h
            · exact Except.noConfusion h
            · next vs st5 heq5 =>
              obtain rfl : _ = r := Except.ok.injEq .. ▸ h
              exact ((((((OutExt.rfl.step _).comp (ihE _ _ _ _ heq2)).step _).step
                _).comp (ihGS _ _ _ _ heq5)).step _).step _ |>.step _
        · split at h
          · exact Except.noConfusion h
          · next vs st2 heq2 =>
            split at h
            · exact Except.noConfusion h
            · next st5 heq5 =>
              obtain rfl : _ = r := Except.ok.injEq .. ▸ h
              exact (((((OutExt.rfl.step _).comp (ihGS _ _ _ _ heq2)).step _).step
                _).comp (ihE _ _ _ _ heq5)).step _
      | forS ini cond act body loc =>
        rw [genStatement_forS] at h
        split at h
        · exact Except.noConfusion h
        · next st1 heq1 =>
          have h1 : OutExt st st1 := by
            split at heq1
            · obtain rfl : st = st1 := Except.ok.injEq .. ▸ heq1
              exact OutExt.rfl
            · split at heq1
              · exact Except.noConfusion heq1
              · next vs stI2 heqI =>
                obtain rfl : _ = st1 := Except.ok.injEq .. ▸ heq1
                exact ((OutExt.rfl.step _).comp (ihGS _ _ _ _ heqI)).step _
          split at h
          · exact Except.noConfusion h
          · next st2 heq2 =>
            have h2 : OutExt st1 st2 := by
              split at heq2
              · obtain rfl : st1 = st2 := Except.ok.injEq .. ▸ heq2
                exact OutExt.rfl
              · split at heq2
                · exact Except.noConfusion heq2
                · next stC2 heqC =>
                  obtain rfl : _ = st2 := Except.ok.injEq .. ▸ heq2
                  exact ((OutExt.rfl.step _).comp (ihE _ _ _ _ heqC)).step _
            split at h
            · exact Except.noConfusion h
            · next vs st4 heq4 =>
              split at h
              · exact Except.noConfusion h
              · next st6 heq6 =>
                have h6 : OutExt st4 st6 := by
                  split at heq6
                  · obtain rfl : _ = st6 := Except.ok.injEq .. ▸ heq6
                    exact OutExt.rfl.step _
                  · split at heq6
                    · exact Except.noConfusion heq6
                    · next vs2 stA2 heqA =>
                      obtain rfl : _ = st6 := Except.ok.injEq .. ▸ heq6
                      exact (((OutExt.rfl.step _).step _).comp
                        (ihGS _ _ _ _ heqA)).step _
                obtain rfl : _ = r := Except.ok.injEq .. ▸ h
                exact ((((h1.comp (h2.comp ((OutExt.rfl.step _).comp
                  (ihGS _ _ _ _ heq4)))).comp h6).step _).step _)
      | breakS loc => exact Except.noConfusion h
      | functionDeclaration fn ps rt ss loc => exact Except.noConfusion h
      | returnS e loc => exact Except.noConfusion h
    · intro bs vars st r h
      rw [genIfConds_succ] at h
      split at h
      · obtain rfl : st = r := Except.ok.injEq .. ▸ h
        exact OutExt.rfl
      · split at h
        · exact Except.noConfusion h
        · next st2 heq =>
          exact (((OutExt.rfl.step _).comp (ihE _ _ _ _ heq)).step _).comp
            (ihC _ _ _ _ h)
    · intro bs vars st r h
      rw [genIfBlocks_succ] at h
      split at h
      · obtain rfl : (st, ([] : List Nat)) = r := Except.ok.injEq .. ▸ h
        exact OutExt.rfl
      · split at h
        · exact Except.noConfusion h
        · next vs st2 heq2 =>
          split at h
          · exact Except.noConfusion h
          · next st4 locs heq4 =>
            obtain rfl : (st4, byteLen st.output :: locs) = r :=
              Except.ok.injEq .. ▸ h
            exact (((OutExt.rfl.step _).comp (ihGS _ _ _ _ heq2)).step _).comp
              (ihB _ _ _ (st4, locs) heq4)

/-- Concatenation of a list of strings. -/
def strJoin : List String → String
  | [] => ""
  | s :: rest => s ++ strJoin rest

/-- `partialSums a [l₁, …, lₙ] = [a, a + l₁, …, a + l₁ + ⋯ + lₙ₋₁]`: the
absolute start offsets of consecutive sections of the given lengths laid
out from offset `a`. -/
def partialSums (a : Nat) : List Nat → List Nat
  | [] => []
  | l :: ls => a :: partialSums (a + l) ls

/-- The recorded `jumpLocations` of the `if` case are exactly the absolute
byte offsets at which the consecutive block-body sections start: the
buffer grows by one `; BEGIN IF BLOCK … ; END IF BLOCK` section per block,
and the i-th recorded location is the buffer length at the point the i-th
section begins. -/
theorem genIfBlocks_locs :
    ∀ (fuel : Nat) (blocks : List (Expression × List Statement))
      (vars : List Variable) (st st' : GenState) (locs : List Nat),
      genIfBlocks fuel blocks vars st = .ok (st', locs) →
      ∃ sections : List String,
        sections.length = blocks.length ∧
        st'.output = st.output ++ strJoin sections ∧
        locs = partialSums (byteLen st.output) (sections.map byteLen) ∧
        ∀ sec ∈ sections, ∃ body,
          sec = "; BEGIN IF BLOCK\n" ++ body ++ "; END IF BLOCK\n" := by
  intro fuel
  induction fuel with
  | zero =>
    intro _ _ _ _ _ h
    rw [genIfBlocks_zero] at h
    exact Except.noConfusion h
  | succ f ih =>
    intro blocks vars st st' locs h
    rw [genIfBlocks_succ] at h
    cases blocks with
    | nil =>
      obtain ⟨rfl, rfl⟩ : st = st' ∧ ([] : List Nat) = locs := by
        have h2 := Except.ok.injEq .. ▸ h
        exact Prod.mk.injEq .. ▸ h2
      exact ⟨[], rfl, by simp [strJoin], rfl, by simp⟩
    | cons b bs =>
      dsimp only at h
      split at h
      · exact Except.noConfusion h
      · next vs st2 heq2 =>
        split at h
        · exact Except.noConfusion h
        · next st4 locs' heq4 =>
          obtain ⟨rfl, rfl⟩ : st4 = st' ∧ byteLen st.output :: locs' = locs := by
            have h2 := Except.ok.injEq .. ▸ h
            exact Prod.mk.injEq .. ▸ h2
          obtain ⟨body, hbody⟩ := (genMono f).1 _ _ _ _ heq2
          have hst2 : st2.output = st.output ++ ("; BEGIN IF BLOCK\n" ++ body) := by
            have : (writeB st "; BEGIN IF BLOCK\n").output =
                st.output ++ "; BEGIN IF BLOCK\n" := rfl
            rw [hbody, this, String.append_assoc]
          have hst3 : (writeB st2 "; END IF BLOCK\n").output =
              st.output ++ ("; BEGIN IF BLOCK\n" ++ body ++ "; END IF BLOCK\n") := by
            show st2.output ++ "; END IF BLOCK\n" = _
            rw [hst2, String.append_assoc, String.append_assoc]
          obtain ⟨sections', hlen', hout', hlocs', hshape'⟩ := ih _ _ _ _ _ heq4
          refine ⟨("; BEGIN IF BLOCK\n" ++ body ++ "; END IF BLOCK\n") :: sections',
            by simp [hlen'], ?_, ?_, ?_⟩
          · rw [hout', hst3]
            show _ = st.output ++ (_ ++ strJoin sections')
            rw [String.append_assoc]
          · show byteLen st.output :: locs' = _
            rw [List.map_cons]
            show _ = byteLen st.output :: partialSums (byteLen st.output + _) _
            rw [hlocs', hst3, byteLen_append]
          · intro sec hsec
            rcases List.mem_cons.mp hsec with hh | ht
            · exact ⟨body, hh⟩
            · exact hshape' sec ht

/-- Every condition section emitted by the `if` case ends in the literal
placeholder text `JMP IF TRUE ??` — no numeric target is ever written. -/
theorem genIfConds_sections :
    ∀ (fuel : Nat) (blocks : List (Expression × List Statement))
      (vars : List Variable) (st st' : GenState),
      genIfConds fuel blocks vars st = .ok st' →
      ∃ sections : List String,
        sections.length = blocks.length ∧
        st'.output = st.output ++ strJoin sections ∧
        ∀ sec ∈ sections, ∃ mid,
          sec = "; BEGIN IF COND\n; EVAL EXPRESSION\n" ++ mid ++
            "JMP IF TRUE ??\n; END IF COND\n" := by
  intro fuel
  induction fuel with
  | zero =>
    intro _ _ _ _ h
    rw [genIfConds_zero] at h
    exact Except.noConfusion h
  | succ f ih =>
    intro blocks vars st st' h
    rw [genIfConds_succ] at h
    cases blocks with
    | nil =>
      obtain rfl : st = st' := Except.ok.injEq .. ▸ h
      exact ⟨[], rfl, by simp [strJoin], by simp⟩
    | cons b bs =>
      dsimp only at h
      split at h
      · exact Except.noConfusion h
      · next st2 heq2 =>
        obtain ⟨mid, hmid⟩ := (genMono f).2.2.2.2.2 _ _ _ _ heq2
        have hst3 : (writeB st2 "JMP IF TRUE ??\n; END IF COND\n").output =
            st.output ++ ("; BEGIN IF COND\n; EVAL EXPRESSION\n" ++ mid ++
              "JMP IF TRUE ??\n; END IF COND\n") := by
          show st2.output ++ _ = _
          rw [hmid]
          show (st.output ++ "; BEGIN IF COND\n; EVAL EXPRESSION\n") ++ mid ++ _ = _
          simp [String.append_assoc]
        obtain ⟨sections', hlen', hout', hshape'⟩ := ih _ _ _ _ h
        refine ⟨("; BEGIN IF COND\n; EVAL EXPRESSION\n" ++ mid ++
          "JMP IF TRUE ??\n; END IF COND\n") :: sections', by simp [hlen'], ?_, ?_⟩
        · rw [hout', hst3]
          show _ = st.output ++ (_ ++ strJoin sections')
          rw [String.append_assoc]
        · intro sec hsec
          rcases List.mem_cons.mp hsec with hh | ht
          · exact ⟨mid, hh⟩
          · exact hshape' sec ht

/-- C1 (amended): the code generator does not resolve `if` jumps in the
buffer.  (1) Each condition section ends in the literal placeholder
`JMP IF TRUE ??` — no numeric, let alone `.`-padded, target is emitted.
(2) The generator instead *records* for each block the output-buffer byte
length at the point that block's body section starts (one
`; BEGIN IF BLOCK … ; END IF BLOCK` section per block, the i-th recorded
location being the byte offset where the i-th section begins).  (3) Those
recorded locations are then written, in plain unpadded decimal, into the
trailing comment line `-> FILL IF BLOCK JMP: …` (shown for an `if`
without `else`), together with `-> FILL ELSE BLOCK JMP:` carrying the
buffer length at the end of the block sections.  (4) Where a numeric
offset does appear inside an emitted jump instruction — the do-while back
jump — it is the plain decimal buffer offset, not a 6-character
`.`-padded field. -/
theorem generator_if_fill_resolution :
    (∀ (fuel : Nat) (blocks : List (Expression × List Statement))
       (vars : List Variable) (st st' : GenState) (locs : List Nat),
      genIfBlocks fuel blocks vars st = .ok (st', locs) →
      ∃ sections : List String,
        sections.length = blocks.length ∧
        st'.output = st.output ++ strJoin sections ∧
        locs = partialSums (byteLen st.output) (sections.map byteLen) ∧
        ∀ sec ∈ sections, ∃ body,
          sec = "; BEGIN IF BLOCK\n" ++ body ++ "; END IF BLOCK\n") ∧
    (∀ (fuel : Nat) (blocks : List (Expression × List Statement))
       (vars : List Variable) (st st' : GenState),
      genIfConds fuel blocks vars st = .ok st' →
      ∃ sections : List String,
        sections.length = blocks.length ∧
        st'.output = st.output ++ strJoin sections ∧
        ∀ sec ∈ sections, ∃ mid,
          sec = "; BEGIN IF COND\n; EVAL EXPRESSION\n" ++ mid ++
            "JMP IF TRUE ??\n; END IF COND\n") ∧
    (∀ (f : Nat) (blocks : List (Expression × List Statement)) (loc : Location)
       (inh vars : List Variable) (st stC st3 : GenState) (locs : List Nat),
      genIfConds f blocks (vars ++ inh) st = .ok stC →
      genIfBlocks f blocks (vars ++ inh)
        (writeB stC "; BEGIN ELSE COND\nJMP ??\n; END ELSE COND\n") =
        .ok (st3, locs) →
      genStatement (f + 1) (.ifS blocks none loc) inh vars st =
        .ok (vars, writeB
          (writeB st3 ("-> FILL IF BLOCK JMP: " ++ natJoin locs ++ "\n"))
          ("-> FILL ELSE BLOCK JMP: " ++ natText (byteLen st3.output) ++ "\n"))) ∧
    (∀ (f : Nat) (cond : Expression) (body : List Statement) (loc : Location)
       (inh vars : List Variable) (st : GenState) (vs : List Variable)
       (st' : GenState),
      genStatement (f + 1) (.whileS cond body true loc) inh vars st =
        .ok (vs, st') →
      ∃ mid, st'.output = st.output ++ ("; BEGIN WHILE BLOCK\n" ++ (mid ++
        ("JMP IF TRUE " ++ natText (byteLen st.output) ++ "\n; END WHILE COND\n")))) := by
  refine ⟨genIfBlocks_locs, genIfConds_sections, ?_, ?_⟩
  · intro f blocks loc inh vars st stC st3 locs h1 h2
    rw [genStatement_ifS, h1]
    dsimp only
    rw [h2]
  · intro f cond body loc inh vars st vs st' h
    rw [genStatement_whileS] at h
    simp only [Bool.not_true, Bool.false_eq_true, if_false] at h
    split at h
    · exact Except.noConfusion h
    · next _fst st2 heq2 =>
      split at h
      · exact Except.noConfusion h
      · next st5 heq5 =>
        have h2 : (vars, writeB st5
            ("JMP IF TRUE " ++ natText (byteLen st.output) ++
              "\n; END WHILE COND\n")) = (vs, st') := Except.ok.injEq .. ▸ h
        obtain ⟨-, rfl⟩ : vars = vs ∧ _ = st' := Prod.mk.injEq .. ▸ h2
        obtain ⟨b1, hb1⟩ := (genMono f).1 _ _ _ _ heq2
        obtain ⟨b2, hb2⟩ := (genMono f).2.2.2.2.2 _ _ _ _ heq5
        refine ⟨b1 ++ ("; END WHILE BLOCK\n" ++
          ("; BEGIN WHILE COND\n; EVAL EXPRESSION\n" ++ b2)), ?_⟩
        simp only [writeB] at hb1 hb2 ⊢
        rw [hb2, hb1]
        simp only [String.append_assoc]

set_option maxRecDepth 8000 in
/-- Witness for C1 (amended): the one-block `if (1) { }` on the empty
state.  The condition section is emitted with the `??` placeholder, the
recorded location list is `[120]` — exactly the byte offset at which the
(empty) block body section starts — and the `if` case appends the two
`-> FILL` comment lines carrying `120` and `152` in plain decimal. -/
theorem generator_if_fill_resolution_witness :
    genIfConds 49 [(.integerLiteral 1 ⟨"f", 1, 5⟩, [])] [] ⟨0, ""⟩ =
      .ok ⟨0, "; BEGIN IF COND\n; EVAL EXPRESSION\n< LITERAL INT 1\n" ++
        "JMP IF TRUE ??\n; END IF COND\n"⟩ ∧
    genIfBlocks 49 [(.integerLiteral 1 ⟨"f", 1, 5⟩, [])] []
      (writeB ⟨0, "; BEGIN IF COND\n; EVAL EXPRESSION\n< LITERAL INT 1\n" ++
          "JMP IF TRUE ??\n; END IF COND\n"⟩
        "; BEGIN ELSE COND\nJMP ??\n; END ELSE COND\n") =
      .ok (⟨0, "; BEGIN IF COND\n; EVAL EXPRESSION\n< LITERAL INT 1\n" ++
        "JMP IF TRUE ??\n; END IF COND\n; BEGIN ELSE COND\nJMP ??\n" ++
        "; END ELSE COND\n; BEGIN IF BLOCK\n; END IF BLOCK\n"⟩, [120]) ∧
    genStatement 50 (.ifS [(.integerLiteral 1 ⟨"f", 1, 5⟩, [])] none ⟨"f", 1, 1⟩)
      [] [] ⟨0, ""⟩ =
      .ok ([], writeB
        (writeB ⟨0, "; BEGIN IF COND\n; EVAL EXPRESSION\n< LITERAL INT 1\n" ++
          "JMP IF TRUE ??\n; END IF COND\n; BEGIN ELSE COND\nJMP ??\n" ++
          "; END ELSE COND\n; BEGIN IF BLOCK\n; END IF BLOCK\n"⟩
          ("-> FILL IF BLOCK JMP: " ++ natJoin [120] ++ "\n"))
        ("-> FILL ELSE BLOCK JMP: " ++
          natText (byteLen ("; BEGIN IF COND\n; EVAL EXPRESSION\n< LITERAL INT 1\n" ++
            "JMP IF TRUE ??\n; END IF COND\n; BEGIN ELSE COND\nJMP ??\n" ++
            "; END ELSE COND\n; BEGIN IF BLOCK\n; END IF BLOCK\n")) ++ "\n")) := by
  refine ⟨by rfl, by rfl, ?_⟩
  exact generator_if_fill_resolution.2.2.1 49 [(.integerLiteral 1 ⟨"f", 1, 5⟩, [])]
    ⟨"f", 1, 1⟩ [] [] ⟨0, ""⟩ _ _ [120] (by rfl) (by rfl)
